import Mathlib

set_option maxRecDepth 10000

/-!
Shallow embedding of the hx hex editor core (src/buffer/document.rs and
src/app/{mod,state}.rs) and proofs about the claims of its specification.

Modeling conventions:
* `u8` and `usize` values are `Nat`; overflow never occurs in the embedded
  code paths (byte values are built from nibbles `< 16`, positions are list
  indices), except in text-to-integer parsing, where the `usize`/`u8` range
  checks of `from_str_radix` are modeled explicitly.
* Rust `Vec<T>` is `List T`.  The undo/redo stacks push/pop at the back of a
  `Vec`; they are modeled with the most recent operation at the HEAD of the
  list, so `push` is `cons` and `pop` is pattern matching on `op :: rest`.
* Fallible operations mirror `Result` with `Except`; `&mut self` methods
  return a pair of the `Result` and the updated value.
* `Vec` indexing / `Vec::remove` / `Vec::insert` panic when out of bounds in
  Rust; the embedding uses the total `List.getD`/`List.eraseIdx`/
  `List.insertIdx`, which agree with Rust whenever the index is in bounds
  (every call site in the source is guarded, or reached only with in-bounds
  indices recorded by earlier operations).
-/

namespace Hx

/-- Modelled from the spec: `BufferError` lives in `src/buffer/mod.rs`, which
is declared (`pub mod buffer`) but absent from the sources; the spec names the
error kinds `OutOfBounds` (with the offending position) and `IoError`. -/
inductive BufferError where
  | outOfBounds (pos : Nat)
  | io
deriving DecidableEq, Repr

/-- Undo/redo operation record (`enum UndoOp` in document.rs):
`Set(position, old value, new value)`, `Insert(position, value)`,
`Delete(position, value)`. -/
inductive UndoOp where
  | set (pos old new : Nat)
  | insert (pos val : Nat)
  | delete (pos val : Nat)
deriving DecidableEq, Repr

/-- `struct Document` of document.rs.  `PathBuf` is modeled as `String`. -/
structure Document where
  path : Option String
  data : List Nat
  modified : Bool
  readonly : Bool
  undo_stack : List UndoOp
  redo_stack : List UndoOp
deriving DecidableEq, Repr

namespace Document

/-- `Document::new` -/
def new : Document :=
  { path := none, data := [], modified := false, readonly := false
    undo_stack := [], redo_stack := [] }

/-- `Document::from_bytes` -/
def from_bytes (data : List Nat) : Document :=
  { path := none, data := data, modified := false, readonly := false
    undo_stack := [], redo_stack := [] }

/-- `Document::len` -/
def len (d : Document) : Nat := d.data.length

/-- `Document::is_empty` -/
def is_empty (d : Document) : Bool := d.data.isEmpty

/-- `Document::get` -/
def get (d : Document) (pos : Nat) : Option Nat := d.data.get? pos

/-- `Document::get_range` (returns `data[start..stop]` when
`start <= stop && stop <= len`). -/
def get_range (d : Document) (start stop : Nat) : Option (List Nat) :=
  if start ≤ stop ∧ stop ≤ d.data.length then
    some ((d.data.drop start).take (stop - start))
  else
    none

/-- `Document::set`: writes `value` at `pos` if in bounds, recording an undo
entry only when the value actually changes. -/
def set (d : Document) (pos value : Nat) : Except BufferError Unit × Document :=
  if pos < d.data.length then
    let old_value := d.data.getD pos 0
    if old_value ≠ value then
      (Except.ok (),
        { d with
          data := d.data.set pos value
          modified := true
          undo_stack := UndoOp.set pos old_value value :: d.undo_stack
          redo_stack := [] })
    else
      (Except.ok (), d)
  else
    (Except.error (BufferError.outOfBounds pos), d)

/-- `Document::insert`: inserts `value` at `pos <= len` (append allowed). -/
def insert (d : Document) (pos value : Nat) : Except BufferError Unit × Document :=
  if pos ≤ d.data.length then
    (Except.ok (),
      { d with
        data := d.data.insertIdx pos value
        modified := true
        undo_stack := UndoOp.insert pos value :: d.undo_stack
        redo_stack := [] })
  else
    (Except.error (BufferError.outOfBounds pos), d)

/-- `Document::delete`: removes and returns the byte at `pos < len`. -/
def delete (d : Document) (pos : Nat) : Except BufferError Nat × Document :=
  if pos < d.data.length then
    let value := d.data.getD pos 0
    (Except.ok value,
      { d with
        data := d.data.eraseIdx pos
        modified := true
        undo_stack := UndoOp.delete pos value :: d.undo_stack
        redo_stack := [] })
  else
    (Except.error (BufferError.outOfBounds pos), d)

/-- `Document::undo`: pops the most recent operation, applies its inverse,
pushes it on the redo stack and re-derives `modified`; returns the affected
offset (`pos.saturating_sub(1).min(len-1)` for an undone insert). -/
def undo (d : Document) : Option Nat × Document :=
  match d.undo_stack with
  | [] => (none, d)
  | UndoOp.set pos old_value new_value :: rest =>
      (some pos,
        { d with
          data := d.data.set pos old_value
          undo_stack := rest
          redo_stack := UndoOp.set pos old_value new_value :: d.redo_stack
          modified := !rest.isEmpty })
  | UndoOp.insert pos value :: rest =>
      let data := d.data.eraseIdx pos
      (some (min (pos - 1) (data.length - 1)),
        { d with
          data := data
          undo_stack := rest
          redo_stack := UndoOp.insert pos value :: d.redo_stack
          modified := !rest.isEmpty })
  | UndoOp.delete pos value :: rest =>
      (some pos,
        { d with
          data := d.data.insertIdx pos value
          undo_stack := rest
          redo_stack := UndoOp.delete pos value :: d.redo_stack
          modified := !rest.isEmpty })

/-- `Document::redo`: pops from the redo stack, reapplies the operation and
pushes it back on the undo stack; `modified` becomes `true`. -/
def redo (d : Document) : Option Nat × Document :=
  match d.redo_stack with
  | [] => (none, d)
  | UndoOp.set pos old_value new_value :: rest =>
      (some pos,
        { d with
          data := d.data.set pos new_value
          redo_stack := rest
          undo_stack := UndoOp.set pos old_value new_value :: d.undo_stack
          modified := true })
  | UndoOp.insert pos value :: rest =>
      (some pos,
        { d with
          data := d.data.insertIdx pos value
          redo_stack := rest
          undo_stack := UndoOp.insert pos value :: d.undo_stack
          modified := true })
  | UndoOp.delete pos value :: rest =>
      let data := d.data.eraseIdx pos
      (some (min pos (data.length - 1)),
        { d with
          data := data
          redo_stack := rest
          undo_stack := UndoOp.delete pos value :: d.undo_stack
          modified := true })

/-- `Document::is_modified` -/
def is_modified (d : Document) : Bool := d.modified

/-- `Document::save`: writes the buffer to `path` and clears `modified`.
The file-system outcome is abstracted by `saveOk` (success iff `true`). -/
def save (saveOk : Bool) (d : Document) : Except BufferError Unit × Document :=
  match d.path with
  | some _ =>
      if saveOk then (Except.ok (), { d with modified := false })
      else (Except.error BufferError.io, d)
  | none => (Except.error BufferError.io, d)

/-- `Document::save_as` -/
def save_as (saveOk : Bool) (d : Document) (p : String) :
    Except BufferError Unit × Document :=
  save saveOk { d with path := some p }

end Document

/-- A single buffer mutation call, used to state the undo round-trip claims:
`set(pos,value)`, `insert(pos,value)` or `delete(pos)`. -/
inductive Mutation where
  | set (pos value : Nat)
  | insert (pos value : Nat)
  | delete (pos : Nat)
deriving DecidableEq, Repr

/-- Apply one mutation; `some` exactly when the call returns `Ok`. -/
def Document.applyMut (d : Document) (m : Mutation) : Option Document :=
  match m with
  | Mutation.set pos v =>
      match Document.set d pos v with
      | (Except.ok _, d') => some d'
      | (Except.error _, _) => none
  | Mutation.insert pos v =>
      match Document.insert d pos v with
      | (Except.ok _, d') => some d'
      | (Except.error _, _) => none
  | Mutation.delete pos =>
      match Document.delete d pos with
      | (Except.ok _, d') => some d'
      | (Except.error _, _) => none

/-- Apply a sequence of mutations, requiring every call to succeed. -/
def Document.applySeq (d : Document) : List Mutation → Option Document
  | [] => some d
  | m :: ms =>
      match Document.applyMut d m with
      | some d' => Document.applySeq d' ms
      | none => none

/-- Iterate `undo` `n` times (discarding the returned offsets). -/
def Document.undoN : Nat → Document → Document
  | 0, d => d
  | n + 1, d => Document.undoN n (Document.undo d).2

/-- The inverse application an `undo` performs on the byte contents. -/
def UndoOp.invApply (op : UndoOp) (data : List Nat) : List Nat :=
  match op with
  | UndoOp.set pos old _ => data.set pos old
  | UndoOp.insert pos _ => data.eraseIdx pos
  | UndoOp.delete pos value => data.insertIdx pos value

/-- The byte offset `undo` reports for each kind of popped operation, given
the length of the buffer after the inverse was applied: the set position, the
delete position, or (for an undone insert) the position just before the
insert point, clamped to the last valid index. -/
def UndoOp.undoOffset (op : UndoOp) (newLen : Nat) : Nat :=
  match op with
  | UndoOp.set pos _ _ => pos
  | UndoOp.insert pos _ => min (pos - 1) (newLen - 1)
  | UndoOp.delete pos _ => pos

/-- The forward application a mutation (or a `redo`) performs on the byte
contents. -/
def UndoOp.fwdApply (op : UndoOp) (data : List Nat) : List Nat :=
  match op with
  | UndoOp.set pos _ new => data.set pos new
  | UndoOp.insert pos value => data.insertIdx pos value
  | UndoOp.delete pos _ => data.eraseIdx pos

/-- Well-formedness of an undo stack with respect to the current buffer
contents: each recorded operation can be validly inverted on the contents
obtained by inverting the ones above it.  Every stack produced by actual
`set`/`insert`/`delete` calls satisfies this. -/
def undoOpsValid : List UndoOp → List Nat → Bool
  | [], _ => true
  | UndoOp.set pos old new :: rest, data =>
      decide (pos < data.length) && (data.getD pos 0 == new) &&
        undoOpsValid rest (data.set pos old)
  | UndoOp.insert pos val :: rest, data =>
      decide (pos < data.length) && (data.getD pos 0 == val) &&
        undoOpsValid rest (data.eraseIdx pos)
  | UndoOp.delete pos val :: rest, data =>
      decide (pos ≤ data.length) && undoOpsValid rest (data.insertIdx pos val)

/-! ### Character and string helpers (Rust std semantics) -/

/-- Rust `char::is_whitespace` (the Unicode White_Space property). -/
def rustIsWhitespace (c : Char) : Bool :=
  let n := c.toNat
  (0x09 ≤ n ∧ n ≤ 0x0D) ∨ n = 0x20 ∨ n = 0x85 ∨ n = 0xA0 ∨ n = 0x1680 ∨
    (0x2000 ≤ n ∧ n ≤ 0x200A) ∨ n = 0x2028 ∨ n = 0x2029 ∨ n = 0x202F ∨
    n = 0x205F ∨ n = 0x3000

/-- Rust `str::trim` on the character list of a string. -/
def rustTrimList (s : List Char) : List Char :=
  ((s.dropWhile rustIsWhitespace).reverse.dropWhile rustIsWhitespace).reverse

/-- Rust `str::trim`. -/
def rustTrim (s : String) : String := String.mk (rustTrimList s.data)

/-- UTF-8 encoding of one scalar value (Rust `char::encode_utf8`); underlies
`str::as_bytes`. -/
def utf8EncodeCharNat (c : Char) : List Nat :=
  let n := c.toNat
  if n < 0x80 then [n]
  else if n < 0x800 then
    [0xC0 ||| (n >>> 6), 0x80 ||| (n &&& 0x3F)]
  else if n < 0x10000 then
    [0xE0 ||| (n >>> 12), 0x80 ||| ((n >>> 6) &&& 0x3F), 0x80 ||| (n &&& 0x3F)]
  else
    [0xF0 ||| (n >>> 18), 0x80 ||| ((n >>> 12) &&& 0x3F),
      0x80 ||| ((n >>> 6) &&& 0x3F), 0x80 ||| (n &&& 0x3F)]

/-- Rust `str::as_bytes` (UTF-8 bytes of the string). -/
def strBytes (s : String) : List Nat :=
  s.data.foldr (fun c acc => utf8EncodeCharNat c ++ acc) []

/-- Rust `char::is_ascii_hexdigit`. -/
def is_ascii_hexdigit (c : Char) : Bool :=
  ('0' ≤ c ∧ c ≤ '9') ∨ ('a' ≤ c ∧ c ≤ 'f') ∨ ('A' ≤ c ∧ c ≤ 'F')

/-- Rust `char::is_ascii_alphabetic`. -/
def is_ascii_alphabetic (c : Char) : Bool :=
  ('a' ≤ c ∧ c ≤ 'z') ∨ ('A' ≤ c ∧ c ≤ 'Z')

/-- Rust `char::to_digit(radix)`. -/
def charToDigit (c : Char) (radix : Nat) : Option Nat :=
  let v : Option Nat :=
    if '0' ≤ c ∧ c ≤ '9' then some (c.toNat - '0'.toNat)
    else if 'a' ≤ c ∧ c ≤ 'z' then some (c.toNat - 'a'.toNat + 10)
    else if 'A' ≤ c ∧ c ≤ 'Z' then some (c.toNat - 'A'.toNat + 10)
    else none
  v.bind fun d => if d < radix then some d else none

/-- Digits-only core of Rust `from_str_radix` (no sign): fails on an empty
string or a character that is not a digit of the radix. -/
def parseDigits (radix : Nat) : List Nat → List Char → Option Nat
  | acc, [] => if acc.isEmpty then none else some (acc.foldl (fun a d => a * radix + d) 0)
  | acc, c :: rest =>
      match charToDigit c radix with
      | some d => parseDigits radix (acc ++ [d]) rest
      | none => none

/-- Rust `uN::from_str_radix` for an unsigned integer type with maximum value
`maxVal` (`2^64-1` for `usize` on the 64-bit targets the editor builds for,
`2^8-1` for `u8`): optional `+`/`-` sign, at least one digit, overflow is an
error (for unsigned types a `-` sign only parses when the value is zero). -/
def from_str_radix (radix maxVal : Nat) (s : List Char) : Option Nat :=
  let core : List Char → Option Nat := fun cs =>
    (parseDigits radix [] cs).bind fun n => if n ≤ maxVal then some n else none
  match s with
  | '+' :: rest => core rest
  | '-' :: rest => (parseDigits radix [] rest).bind fun n => if n = 0 then some 0 else none
  | _ => core s

/-- `usize::from_str_radix` (64-bit `usize`). -/
def usize_from_str_radix (radix : Nat) (s : List Char) : Option Nat :=
  from_str_radix radix (2 ^ 64 - 1) s

/-- `u8::from_str_radix`. -/
def u8_from_str_radix (radix : Nat) (s : List Char) : Option Nat :=
  from_str_radix radix (2 ^ 8 - 1) s

/-- Uppercase hexadecimal rendering of a number (Rust `{:X}`). -/
def hexUpper (n : Nat) : String :=
  String.mk ((Nat.toDigits 16 n).map Char.toUpper)

/-- Zero-padded 8-wide uppercase hexadecimal (Rust `{:08X}`). -/
def hex8 (n : Nat) : String :=
  let ds := (Nat.toDigits 16 n).map Char.toUpper
  String.mk (List.replicate (8 - ds.length) '0' ++ ds)

/-! ### PatternInterpreter (`App::looks_like_hex` and friends, state.rs) -/

/-- `App::normalize_fullwidth`: full-width ASCII forms U+FF01..U+FF5E map to
U+0021..U+007E, the ideographic space maps to a space.  (The `unwrap_or`
fallback in the source is unreachable: the shifted code point is always a
valid scalar value.) -/
def normalize_fullwidth (c : Char) : Char :=
  let cp := c.toNat
  if 0xFF01 ≤ cp ∧ cp ≤ 0xFF5E then Char.ofNat (cp - 0xFF00 + 0x20)
  else if c = '　' then ' '
  else c

/-- `App::normalize_hex_char`: half- and full-width hex digits normalize to
the half-width upper-case form; every other character gives `none`. -/
def normalize_hex_char (ch : Char) : Option Char :=
  match ch with
  | '0' => some '0' | '1' => some '1' | '2' => some '2' | '3' => some '3'
  | '4' => some '4' | '5' => some '5' | '6' => some '6' | '7' => some '7'
  | '8' => some '8' | '9' => some '9'
  | 'A' => some 'A' | 'B' => some 'B' | 'C' => some 'C'
  | 'D' => some 'D' | 'E' => some 'E' | 'F' => some 'F'
  | 'a' => some 'A' | 'b' => some 'B' | 'c' => some 'C'
  | 'd' => some 'D' | 'e' => some 'E' | 'f' => some 'F'
  | '０' => some '0' | '１' => some '1' | '２' => some '2' | '３' => some '3'
  | '４' => some '4' | '５' => some '5' | '６' => some '6' | '７' => some '7'
  | '８' => some '8' | '９' => some '9'
  | 'Ａ' => some 'A' | 'Ｂ' => some 'B' | 'Ｃ' => some 'C'
  | 'Ｄ' => some 'D' | 'Ｅ' => some 'E' | 'Ｆ' => some 'F'
  | 'ａ' => some 'A' | 'ｂ' => some 'B' | 'ｃ' => some 'C'
  | 'ｄ' => some 'D' | 'ｅ' => some 'E' | 'ｆ' => some 'F'
  | _ => none

/-- `App::normalize_hex_string`: drop separator characters (space, comma,
braces, newline, carriage return, tab) and the letter x/X (half- or
full-width), then normalize the rest via `normalize_hex_char` (which drops
every character that is not a hex digit).  The result is a list of ASCII
characters, so its length equals the Rust string byte length. -/
def normalize_hex_string (s : String) : List Char :=
  s.data.filterMap fun c =>
    if c = ' ' ∨ c = ',' ∨ c.toNat = 0x7B ∨ c.toNat = 0x7D ∨ c = '\n' ∨
        c = '\r' ∨ c = '\t' then
      none
    else if c = 'x' ∨ c = 'X' ∨ c = 'ｘ' ∨ c = 'Ｘ' then
      none
    else
      normalize_hex_char c

/-- `App::looks_like_hex`: non-empty input whose normalization has even
length, length at least two, and only hex digits. -/
def looks_like_hex (s : String) : Bool :=
  if s.data.isEmpty then false
  else
    let normalized := normalize_hex_string s
    normalized.length % 2 = 0 ∧ 2 ≤ normalized.length ∧
      normalized.all is_ascii_hexdigit

/-- Decode an even-length list of hex digit characters into bytes
(the indexed loop of `App::normalized_hex_to_bytes`). -/
def decodeHexPairs : List Char → Option (List Nat)
  | [] => some []
  | [_] => none
  | hi :: lo :: rest =>
      (charToDigit hi 16).bind fun h =>
        (charToDigit lo 16).bind fun l =>
          (decodeHexPairs rest).map fun tail => ((h <<< 4) ||| l) :: tail

/-- `App::normalized_hex_to_bytes`. -/
def normalized_hex_to_bytes (s : String) : Option (List Nat) :=
  let normalized := normalize_hex_string s
  if normalized.length % 2 ≠ 0 then none
  else decodeHexPairs normalized

/-- `App::search_query_to_bytes` as a function of the query string. -/
def search_query_to_bytes (q : String) : List Nat :=
  let trimmed := rustTrim q
  if looks_like_hex trimmed then
    (normalized_hex_to_bytes trimmed).getD (strBytes q)
  else
    strBytes q

/-- `App::replace_with_to_bytes` as a function of the replacement string. -/
def replace_with_to_bytes (q : String) : List Nat :=
  let trimmed := rustTrim q
  if looks_like_hex trimmed then
    (normalized_hex_to_bytes trimmed).getD (strBytes q)
  else
    strBytes q

/-- The hex-or-literal resolution `App::paste_from_terminal` applies to
pasted text before inserting it. -/
def paste_content_to_bytes (content : String) : List Nat :=
  let trimmed := rustTrim content
  if looks_like_hex trimmed then
    (normalized_hex_to_bytes trimmed).getD (strBytes content)
  else
    strBytes content

/-! ### PatternMatcher (`App::find_pattern`, `App::find_pattern_reverse`) -/

/-- `slice::windows(pat.len()).position(|w| w == pat)`: index of the first
window equal to `pat` (callers guarantee `pat` is non-empty). -/
def windowsPosition (pat : List Nat) : List Nat → Option Nat
  | [] => none
  | a :: t =>
      if (a :: t).take pat.length = pat then some 0
      else (windowsPosition pat t).map (· + 1)

/-- `slice::windows(pat.len()).rposition(|w| w == pat)`: index of the last
window equal to `pat`. -/
def windowsRPosition (pat : List Nat) : List Nat → Option Nat
  | [] => none
  | a :: t =>
      match windowsRPosition pat t with
      | some i => some (i + 1)
      | none => if (a :: t).take pat.length = pat then some 0 else none

/-- `App::find_pattern`. -/
def find_pattern (data pattern : List Nat) (start : Nat) : Option Nat :=
  if pattern.isEmpty ∨ data.length < start + pattern.length then none
  else (windowsPosition pattern (data.drop start)).map (· + start)

/-- `App::find_pattern_reverse` (`e` is the exclusive upper bound, `end` in
the source). -/
def find_pattern_reverse (data pattern : List Nat) (e : Nat) : Option Nat :=
  if pattern.isEmpty ∨ e = 0 then none
  else
    let search_end := min e data.length
    if search_end < pattern.length then none
    else windowsRPosition pattern (data.take search_end)

/-- An occurrence of `pat` in `data` at offset `i` (the pattern is non-empty
and appears as the contiguous bytes starting at `i`). -/
def occursAt (data pat : List Nat) (i : Nat) : Prop :=
  pat ≠ [] ∧ i + pat.length ≤ data.length ∧ (data.drop i).take pat.length = pat

instance (data pat : List Nat) (i : Nat) : Decidable (occursAt data pat i) := by
  unfold occursAt; infer_instance

/-! ### EditController types (src/app/mod.rs and state.rs) -/

/-- `enum EditMode` -/
inductive EditMode where
  | overwrite
  | insert
deriving DecidableEq, Repr

/-- `enum InputState` (`HexFirstDigit` carries the first nibble value). -/
inductive InputState where
  | normal
  | hexFirstDigit (d : Nat)
deriving DecidableEq, Repr

/-- `enum PrefixKey` -/
inductive PrefixKey where
  | none
  | ctrlX
deriving DecidableEq, Repr

/-- `enum ReplaceMode` -/
inductive ReplaceMode where
  | off
  | enteringSearch
  | enteringReplace
  | confirming
deriving DecidableEq, Repr

/-- `enum PromptMode` -/
inductive PromptMode where
  | off
  | gotoAddress
  | openFile
  | saveAs
  | command
  | commandArg
deriving DecidableEq, Repr

/-- `enum ConfirmMode` -/
inductive ConfirmMode where
  | off
  | quit
  | openFile (path : String)
  | killBuffer
deriving DecidableEq, Repr

/-- `enum Action` of mod.rs, together with the variants `StartGoto`,
`OpenFile`, `KillBuffer`, `ExecuteCommand` that `App::execute` in state.rs
additionally matches on (`SaveAs` is matched there without a payload); the
embedding takes the union so that `execute` can be translated arm by arm. -/
inductive Action where
  | quit
  | save
  | saveAs
  | cursorUp
  | cursorDown
  | cursorLeft
  | cursorRight
  | cursorHome
  | cursorEnd
  | pageUp
  | pageDown
  | gotoBeginning
  | gotoEnd
  | gotoAddress (a : Nat)
  | inputHex (c : Char)
  | inputAscii (c : Char)
  | delete
  | backspace
  | toggleMode
  | toggleEditMode
  | startSelection
  | clearSelection
  | selectAll
  | selectUp
  | selectDown
  | selectLeft
  | selectRight
  | copy
  | copyHex
  | cut
  | paste
  | pasteHex
  | toggleEncoding
  | setBytesPerRow (n : Nat)
  | startSearch
  | startSearchBack
  | search (p : List Nat)
  | searchNext
  | searchPrev
  | startReplace
  | startGoto
  | openFile
  | killBuffer
  | executeCommand
  | undo
  | redo
  | enterCtrlX
  | cancel
  | none
deriving DecidableEq, Repr

/-- The crossterm key codes the controller distinguishes (`endOfLine` is
crossterm `KeyCode::End`, `insertKey` is `KeyCode::Insert`). -/
inductive KeyCode where
  | char (c : Char)
  | enter
  | esc
  | backspace
  | delete
  | up
  | down
  | left
  | right
  | home
  | endOfLine
  | pageUp
  | pageDown
  | tab
  | insertKey
  | f (n : Nat)
  | other
deriving DecidableEq, Repr

/-- A key event: code, modifier flags, and whether the kind is `Press`. -/
structure KeyEvent where
  code : KeyCode
  ctrl : Bool
  shift : Bool
  alt : Bool
  press : Bool
deriving DecidableEq, Repr

/-- The crossterm events `App::handle_event` distinguishes; `noEvent` is a
poll timeout. -/
inductive Event where
  | paste (content : String)
  | key (k : KeyEvent)
  | focusGained
  | focusLost
  | other
  | noEvent

/-- Outcomes of the external collaborators for one event step.  The
`encoding` and `clipboard` modules are declared in lib.rs but absent from
the sources, and file I/O results depend on the file system; all are
quantified over, since no claim depends on their internals:
`encodeChar` is `encoding::encode_char` (bytes of a character in the
encoding with the given index, `none` on encode failure), `encName`/`encNext`
are `CharEncoding::name`/`next`, `saveOk` is the success of a file write,
`openResult` the contents read by `Document::open` (`none` on I/O error),
`clipboardText` the system clipboard contents, `home` the HOME directory. -/
structure Env where
  encodeChar : Char → Nat → Option (List Nat)
  encName : Nat → String
  encNext : Nat → Nat
  saveOk : Bool
  openResult : Option (List Nat)
  clipboardText : Option String
  home : Option String

/-- A fixed environment used to instantiate universally quantified
theorems on concrete inputs. -/
def Env.dflt : Env :=
  { encodeChar := fun _ _ => Option.none
    encName := fun _ => "UTF-8"
    encNext := fun e => e
    saveOk := false
    openResult := Option.none
    clipboardText := Option.none
    home := Option.none }

/-- `struct App` of state.rs (the `CharEncoding` is an abstract index, see
`Env`). -/
structure App where
  document : Document
  cursor : Nat
  offset : Nat
  bytes_per_row : Nat
  visible_rows : Nat
  hex_mode : Bool
  edit_mode : EditMode
  input_state : InputState
  prefix_key : PrefixKey
  selection : Option (Nat × Nat)
  selection_start : Option Nat
  encoding : Nat
  should_quit : Bool
  status_message : Option String
  search_mode : Bool
  search_query : String
  last_search_query : String
  search_start_pos : Nat
  replace_mode : ReplaceMode
  replace_with : String
  prompt_mode : PromptMode
  prompt_input : String
  confirm_mode : ConfirmMode
  current_command : String
deriving DecidableEq, Repr

namespace App

/-- `App::new` -/
def new : App :=
  { document := Document.new
    cursor := 0
    offset := 0
    bytes_per_row := 16
    visible_rows := 24
    hex_mode := true
    edit_mode := EditMode.overwrite
    input_state := InputState.normal
    prefix_key := PrefixKey.none
    selection := Option.none
    selection_start := Option.none
    encoding := 0
    should_quit := false
    status_message := Option.none
    search_mode := false
    search_query := ""
    last_search_query := ""
    search_start_pos := 0
    replace_mode := ReplaceMode.off
    replace_with := ""
    prompt_mode := PromptMode.off
    prompt_input := ""
    confirm_mode := ConfirmMode.off
    current_command := "" }

/-- Rust `String::pop` (drop the last character). -/
def popStr (s : String) : String := String.mk s.data.dropLast

/-- `Path::file_name`, modeled as the final `/`-separated component of the
path (the editor only uses it for display and prompt defaults). -/
def pathFileName (p : String) : Option String :=
  let comp := (p.data.reverse.takeWhile (fun c => c ≠ '/')).reverse
  if comp.isEmpty then Option.none else some (String.mk comp)

/-- `Document::filename` -/
def docFilename (d : Document) : Option String := d.path.bind pathFileName

/-- Apply `f` to `x`, `n` times (Rust `for _ in 0..n` loops). -/
def applyN (f : App → App) : Nat → App → App
  | 0, x => x
  | n + 1, x => applyN f n (f x)

/-- `App::ensure_cursor_visible` -/
def ensure_cursor_visible (a : App) : App :=
  let cursor_row := a.cursor / a.bytes_per_row
  let offset_row := a.offset / a.bytes_per_row
  if cursor_row < offset_row then
    { a with offset := cursor_row * a.bytes_per_row }
  else if offset_row + a.visible_rows ≤ cursor_row then
    { a with offset := (cursor_row - a.visible_rows + 1) * a.bytes_per_row }
  else a

/-- `App::cursor_up` -/
def cursor_up (a : App) : App :=
  if a.bytes_per_row ≤ a.cursor then
    ensure_cursor_visible { a with cursor := a.cursor - a.bytes_per_row }
  else a

/-- `App::cursor_down` -/
def cursor_down (a : App) : App :=
  let new_pos := a.cursor + a.bytes_per_row
  if new_pos < a.document.len then ensure_cursor_visible { a with cursor := new_pos }
  else a

/-- `App::cursor_left` -/
def cursor_left (a : App) : App :=
  if 0 < a.cursor then ensure_cursor_visible { a with cursor := a.cursor - 1 } else a

/-- `App::cursor_right` (may move to the end-of-file position). -/
def cursor_right (a : App) : App :=
  if a.cursor < a.document.len then ensure_cursor_visible { a with cursor := a.cursor + 1 }
  else a

/-- `App::page_up` -/
def page_up (a : App) : App :=
  let page_size := a.visible_rows * a.bytes_per_row
  { a with cursor := a.cursor - page_size, offset := a.offset - page_size }

/-- `App::page_down` -/
def page_down (a : App) : App :=
  let page_size := a.visible_rows * a.bytes_per_row
  let max_pos := a.document.len
  ensure_cursor_visible
    { a with
      cursor := min (a.cursor + page_size) max_pos
      offset := min (a.offset + page_size)
        ((a.document.len / a.bytes_per_row - a.visible_rows) * a.bytes_per_row) }

/-- `App::cursor_home` -/
def cursor_home (a : App) : App :=
  { a with cursor := a.cursor / a.bytes_per_row * a.bytes_per_row }

/-- `App::cursor_end` -/
def cursor_end (a : App) : App :=
  let row_start := a.cursor / a.bytes_per_row * a.bytes_per_row
  { a with cursor := min (row_start + a.bytes_per_row) a.document.len }

/-- `App::input_hex`: two-keystroke hex byte entry. -/
def input_hex (ch : Char) (a : App) : App :=
  match (normalize_hex_char ch).bind (charToDigit · 16) with
  | Option.none => a
  | some digit =>
      match a.input_state with
      | InputState.normal =>
          let a' :=
            match a.edit_mode with
            | EditMode.overwrite =>
                let low_nibble :=
                  if a.cursor < a.document.len then
                    (Document.get a.document a.cursor).getD 0 &&& 0x0F
                  else 0
                let value := (digit <<< 4) ||| low_nibble
                if a.cursor < a.document.len then
                  { a with document := (Document.set a.document a.cursor value).2 }
                else
                  { a with document := (Document.insert a.document a.cursor value).2 }
            | EditMode.insert =>
                { a with document := (Document.insert a.document a.cursor (digit <<< 4)).2 }
          { a' with input_state := InputState.hexFirstDigit digit }
      | InputState.hexFirstDigit first =>
          let value := (first <<< 4) ||| digit
          let a' := { a with document := (Document.set a.document a.cursor value).2 }
          let a'' := cursor_right a'
          { a'' with input_state := InputState.normal }

/-- `App::input_ascii`: encode one character in the active encoding and
write its bytes per edit mode. -/
def input_ascii (env : Env) (ch : Char) (a : App) : App :=
  match env.encodeChar ch a.encoding with
  | Option.none =>
      { a with
        status_message :=
          some ("Cannot encode " ++ String.singleton ch ++ " in " ++ env.encName a.encoding) }
  | some bytes =>
      if bytes.isEmpty then a
      else
        let c := a.cursor
        let doc :=
          match a.edit_mode with
          | EditMode.overwrite =>
              bytes.enum.foldl
                (fun d p =>
                  let pos := c + p.1
                  if pos < d.data.length then (Document.set d pos p.2).2
                  else (Document.insert d pos p.2).2)
                a.document
          | EditMode.insert =>
              bytes.enum.foldl (fun d p => (Document.insert d (c + p.1) p.2).2) a.document
        applyN cursor_right bytes.length { a with document := doc }

/-- `App::start_selection` -/
def start_selection (a : App) : App :=
  { a with
    selection_start := some a.cursor
    selection := some (a.cursor, a.cursor)
    status_message := some "Mark set" }

/-- `App::clear_selection` -/
def clear_selection (a : App) : App :=
  { a with selection_start := Option.none, selection := Option.none }

/-- `App::update_selection` -/
def update_selection (a : App) : App :=
  match a.selection_start with
  | some start =>
      if start ≤ a.cursor then { a with selection := some (start, a.cursor) }
      else { a with selection := some (a.cursor, start) }
  | Option.none => a

/-- `App::select_up` -/
def select_up (a : App) : App :=
  let a := if a.selection_start.isNone then { a with selection_start := some a.cursor } else a
  update_selection (cursor_up a)

/-- `App::select_down` -/
def select_down (a : App) : App :=
  let a := if a.selection_start.isNone then { a with selection_start := some a.cursor } else a
  update_selection (cursor_down a)

/-- `App::select_left` -/
def select_left (a : App) : App :=
  let a := if a.selection_start.isNone then { a with selection_start := some a.cursor } else a
  update_selection (cursor_left a)

/-- `App::select_right` -/
def select_right (a : App) : App :=
  let a := if a.selection_start.isNone then { a with selection_start := some a.cursor } else a
  update_selection (cursor_right a)

/-- `App::copy` (the clipboard write has no effect on the state). -/
def copy (a : App) : App :=
  match a.selection with
  | some (s, e) =>
      match Document.get_range a.document s (e + 1) with
      | some _ =>
          clear_selection
            { a with status_message := some ("Copied " ++ toString (e - s + 1) ++ " bytes") }
      | Option.none => a
  | Option.none => { a with status_message := some "No selection" }

/-- `App::copy_hex` -/
def copy_hex (a : App) : App :=
  match a.selection with
  | some (s, e) =>
      match Document.get_range a.document s (e + 1) with
      | some _ => clear_selection { a with status_message := some "Copied as HEX" }
      | Option.none => a
  | Option.none => a

/-- `App::cut`: copy then delete the selection from the highest offset down. -/
def cut (a : App) : App :=
  match a.selection with
  | some (s, e) =>
      match Document.get_range a.document s (e + 1) with
      | some _ =>
          let doc :=
            (List.range (e + 1 - s)).foldl (fun d i => (Document.delete d (e - i)).2) a.document
          clear_selection
            { a with
              document := doc
              cursor := s
              status_message := some ("Cut " ++ toString (e - s + 1) ++ " bytes") }
      | Option.none => a
  | Option.none => { a with status_message := some "No selection" }

/-- `App::paste_from_terminal`: resolve the text via the hex-or-literal rule,
delete any selection, then write the bytes per edit mode and advance. -/
def paste_from_terminal (content : String) (a : App) : App :=
  let bytes := paste_content_to_bytes content
  if bytes.isEmpty then a
  else
    let a :=
      match a.selection with
      | some (s, e) =>
          let doc :=
            (List.range (e + 1 - s)).foldl (fun d i => (Document.delete d (e - i)).2) a.document
          clear_selection { a with document := doc, cursor := s }
      | Option.none => a
    let c := a.cursor
    let doc :=
      match a.edit_mode with
      | EditMode.overwrite =>
          bytes.enum.foldl
            (fun d p =>
              let pos := c + p.1
              if pos < d.data.length then (Document.set d pos p.2).2
              else (Document.insert d pos p.2).2)
            a.document
      | EditMode.insert =>
          bytes.enum.foldl (fun d p => (Document.insert d (c + p.1) p.2).2) a.document
    let a := ensure_cursor_visible { a with document := doc, cursor := c + bytes.length }
    { a with status_message := some ("Pasted " ++ toString bytes.length ++ " bytes") }

/-- `App::paste` (C-y): read the system clipboard and paste. -/
def paste (env : Env) (a : App) : App :=
  match env.clipboardText with
  | some content => paste_from_terminal content a
  | Option.none => { a with status_message := some "Clipboard empty or unavailable" }

/-- `App::find_next`: forward search from `cursor+1` with wraparound. -/
def find_next (a : App) : App :=
  let pattern := search_query_to_bytes a.search_query
  if pattern.isEmpty then a
  else
    let data := a.document.data
    let start := a.cursor + 1
    match find_pattern data pattern start with
    | some pos =>
        { ensure_cursor_visible { a with cursor := pos } with
          status_message := some ("Found at " ++ hex8 pos) }
    | Option.none =>
        match find_pattern data pattern 0 with
        | some pos =>
            if pos < start then
              { ensure_cursor_visible { a with cursor := pos } with
                status_message := some ("Wrapped, found at " ++ hex8 pos) }
            else { a with status_message := some "Not found" }
        | Option.none => { a with status_message := some "Not found" }

/-- `App::find_prev`: backward search from `cursor` with wraparound. -/
def find_prev (a : App) : App :=
  let pattern := search_query_to_bytes a.search_query
  if pattern.isEmpty then a
  else
    let data := a.document.data
    let e := a.cursor
    match find_pattern_reverse data pattern e with
    | some pos =>
        { ensure_cursor_visible { a with cursor := pos } with
          status_message := some ("Found at " ++ hex8 pos) }
    | Option.none =>
        match find_pattern_reverse data pattern data.length with
        | some pos =>
            if e < pos then
              { ensure_cursor_visible { a with cursor := pos } with
                status_message := some ("Wrapped, found at " ++ hex8 pos) }
            else { a with status_message := some "Not found" }
        | Option.none => { a with status_message := some "Not found" }

/-- `App::do_incremental_search` -/
def do_incremental_search (a : App) : App :=
  let pattern := search_query_to_bytes a.search_query
  if pattern.isEmpty then a
  else
    match find_pattern a.document.data pattern a.search_start_pos with
    | some pos => ensure_cursor_visible { a with cursor := pos }
    | Option.none =>
        match find_pattern a.document.data pattern 0 with
        | some pos => ensure_cursor_visible { a with cursor := pos }
        | Option.none => a

/-- Zero-padded 2-wide uppercase hexadecimal (Rust `{:02X}`). -/
def hex2 (n : Nat) : String :=
  let ds := (Nat.toDigits 16 n).map Char.toUpper
  String.mk (List.replicate (2 - ds.length) '0' ++ ds)

/-- Whether a character list starts with `0x` or `0X`. -/
def startsWith0x : List Char → Bool
  | '0' :: 'x' :: _ => true
  | '0' :: 'X' :: _ => true
  | _ => false

/-- `App::parse_number` -/
def parse_number (s : String) : Option Nat :=
  if startsWith0x s.data then usize_from_str_radix 16 (s.data.drop 2)
  else usize_from_str_radix 10 s.data

/-- `App::parse_byte` (the `s.len() <= 2` byte-length test agrees with the
character count whenever the hex-digit test can succeed, since hex digits
are ASCII). -/
def parse_byte (s : String) : Option Nat :=
  if startsWith0x s.data then u8_from_str_radix 16 (s.data.drop 2)
  else if s.data.length ≤ 2 ∧ s.data.all is_ascii_hexdigit then u8_from_str_radix 16 s.data
  else u8_from_str_radix 10 s.data

/-- The address-expression parser of `App::goto_address` (applied to the
trimmed input): 0x-prefix hex, trailing-h hex, bare hex when every character
is a hex digit and at least one is a letter, else decimal. -/
def goto_parse (inp : String) : Option Nat :=
  if startsWith0x inp.data then usize_from_str_radix 16 (inp.data.drop 2)
  else if inp.data.getLast? = some 'h' ∨ inp.data.getLast? = some 'H' then
    usize_from_str_radix 16 inp.data.dropLast
  else if inp.data.all is_ascii_hexdigit ∧ inp.data.any is_ascii_alphabetic then
    usize_from_str_radix 16 inp.data
  else usize_from_str_radix 10 inp.data

/-- `App::goto_address`: parse the address expression and jump if it is at
most the buffer length. -/
def goto_address (input : String) (a : App) : App :=
  let inp := rustTrim input
  if inp.data.isEmpty then { a with status_message := some "No address" }
  else
    match goto_parse inp with
    | some addr =>
        if addr ≤ a.document.len then
          { ensure_cursor_visible { a with cursor := addr } with
            status_message := some ("Jumped to " ++ hex8 addr) }
        else
          { a with
            status_message :=
              some ("Address " ++ hexUpper addr ++ " exceeds file size " ++
                hexUpper a.document.len) }
    | Option.none => { a with status_message := some "Invalid address" }

/-- Tilde expansion used by `App::open_file` and `App::save_as`
(`PathBuf::join` modeled as `/`-concatenation). -/
def expandPath (env : Env) (p : String) : String :=
  match p.data with
  | '~' :: '/' :: rest =>
      match env.home with
      | some h => h ++ "/" ++ String.mk rest
      | Option.none => p
  | _ => p

/-- `App::open_file` (via `App::open`; the read outcome comes from
`env.openResult`). -/
def open_file (env : Env) (path : String) (a : App) : App :=
  let p := rustTrim path
  if p.data.isEmpty then { a with status_message := some "No file specified" }
  else
    let expanded := expandPath env p
    match env.openResult with
    | some data =>
        { a with
          document :=
            { path := some expanded, data := data, modified := false, readonly := false
              undo_stack := [], redo_stack := [] }
          cursor := 0
          offset := 0
          selection := Option.none
          status_message := some ("Opened: " ++ expanded) }
    | Option.none => { a with status_message := some ("Failed to open: " ++ expanded) }

/-- `App::save_as` (the string-argument version driven by the prompt). -/
def save_as_string (env : Env) (path : String) (a : App) : App :=
  let p := rustTrim path
  if p.data.isEmpty then { a with status_message := some "No file specified" }
  else
    let expanded := expandPath env p
    let r := Document.save_as env.saveOk a.document expanded
    match r.1 with
    | Except.ok _ =>
        { a with document := r.2, status_message := some ("Saved: " ++ expanded) }
    | Except.error _ =>
        { a with document := r.2, status_message := some ("Failed to save: " ++ expanded) }

/-- `App::do_kill_buffer` -/
def do_kill_buffer (a : App) : App :=
  { a with
    document := Document.new
    cursor := 0
    offset := 0
    selection := Option.none
    selection_start := Option.none
    status_message := some "Buffer killed" }

/-- `App::cmd_fill`: fill the selection with a parsed byte value. -/
def cmd_fill (arg : String) (a : App) : App :=
  let arg := rustTrim arg
  let byte : Option Nat :=
    if startsWith0x arg.data then u8_from_str_radix 16 (arg.data.drop 2)
    else if arg.data.length = 2 ∧ arg.data.all is_ascii_hexdigit then
      u8_from_str_radix 16 arg.data
    else u8_from_str_radix 10 arg.data
  match byte with
  | Option.none => { a with status_message := some "Invalid byte value" }
  | some byte =>
      match a.selection with
      | Option.none => { a with status_message := some "No selection" }
      | some (s, e) =>
          let doc :=
            (List.range (e + 1 - s)).foldl
              (fun d i => if s + i < d.data.length then (Document.set d (s + i) byte).2 else d)
              a.document
          clear_selection
            { a with
              document := doc
              status_message :=
                some ("Filled " ++ toString (e - s + 1) ++ " bytes with " ++ hex2 byte) }

/-- Rust `str::split_whitespace` on a character list. -/
def splitWs : List Char → List (List Char)
  | [] => []
  | c :: t =>
      if h' : rustIsWhitespace c then splitWs t
      else
        (c :: t).takeWhile (fun x => !rustIsWhitespace x) ::
          splitWs ((c :: t).dropWhile (fun x => !rustIsWhitespace x))
termination_by l => l.length
decreasing_by
  · simp only [List.length_cons]; omega
  · have hc : (!rustIsWhitespace c) = true := by simp_all
    simp only [List.dropWhile_cons, hc, if_true]
    exact Nat.lt_succ_of_le (List.IsSuffix.length_le (List.dropWhile_suffix _))

/-- `App::cmd_insert`: insert `count` copies of a byte at the cursor. -/
def cmd_insert (arg : String) (a : App) : App :=
  let parts := (splitWs (rustTrimList arg.data)).map String.mk
  match parts with
  | [p0] =>
      dispatchInsert (parse_number p0) (some 0) a
  | [p0, p1] =>
      dispatchInsert (parse_number p0) (parse_byte p1) a
  | _ => { a with status_message := some "Usage: insert <count> [byte]" }
where
  /-- The shared validation-and-insert tail of `cmd_insert`. -/
  dispatchInsert (count byte : Option Nat) (a : App) : App :=
    match count with
    | Option.none => { a with status_message := some "Invalid count" }
    | some count =>
        match byte with
        | Option.none => { a with status_message := some "Invalid byte value" }
        | some byte =>
            if count = 0 then { a with status_message := some "Count must be > 0" }
            else
              let doc :=
                (List.range count).foldl
                  (fun d i => (Document.insert d (a.cursor + i) byte).2) a.document
              { a with
                document := doc
                status_message :=
                  some ("Inserted " ++ toString count ++ " bytes of " ++ hex2 byte) }

/-- `App::find_next_for_replace` -/
def find_next_for_replace (a : App) : App :=
  let pattern := search_query_to_bytes a.search_query
  if pattern.isEmpty then { a with replace_mode := ReplaceMode.off }
  else
    match find_pattern a.document.data pattern a.cursor with
    | some pos =>
        { ensure_cursor_visible { a with cursor := pos } with
          status_message := some ("Replace? (y/n/!/q) at " ++ hex8 pos) }
    | Option.none =>
        { a with replace_mode := ReplaceMode.off, status_message := some "No more matches" }

/-- `App::do_replace_current`: verify the bytes at the cursor still equal the
search pattern, delete them from the highest offset down, insert the
replacement, and advance the cursor past it. -/
def do_replace_current (a : App) : App :=
  let from_bytes := search_query_to_bytes a.search_query
  let to_bytes := replace_with_to_bytes a.replace_with
  if from_bytes.isEmpty then a
  else
    match Document.get_range a.document a.cursor (a.cursor + from_bytes.length) with
    | some data =>
        if data = from_bytes then
          let c := a.cursor
          let d1 :=
            (List.range from_bytes.length).foldl
              (fun d i => (Document.delete d (c + (from_bytes.length - 1 - i))).2) a.document
          let d2 := to_bytes.enum.foldl (fun d p => (Document.insert d (c + p.1) p.2).2) d1
          { a with document := d2, cursor := c + to_bytes.length }
        else a
    | Option.none => a

/-- The `loop` of `App::do_replace_all_remaining`, with explicit fuel.  Each
iteration that finds a match at `pos ≥ cursor` replaces it and moves the
cursor to `pos + |to|`, which strictly decreases `len + 1 - cursor`
(`len` changes by `|to| - |from|` and the cursor grows by at least
`pos - cursor + |to|`, with `|from| ≥ 1`); the loop therefore exits within
`len + 1` iterations, so fuel `len + 2` is never exhausted. -/
def replaceAllLoop : Nat → Nat → App → App × Nat
  | 0, count, a => (a, count)
  | fuel + 1, count, a =>
      let from_bytes := search_query_to_bytes a.search_query
      if from_bytes.isEmpty then (a, count)
      else
        match find_pattern a.document.data from_bytes a.cursor with
        | some pos => replaceAllLoop fuel (count + 1) (do_replace_current { a with cursor := pos })
        | Option.none => (a, count)

/-- `App::do_replace_all_remaining` -/
def do_replace_all_remaining (a : App) : App :=
  let p := replaceAllLoop (a.document.data.length + 2) 0 a
  { p.1 with
    replace_mode := ReplaceMode.off
    status_message := some ("Replaced " ++ toString p.2 ++ " occurrences") }

/-- `App::execute` -/
def execute (env : Env) (action : Action) (a : App) : App :=
  let a := if action = Action.enterCtrlX then a else { a with status_message := Option.none }
  match action with
  | Action.quit =>
      if a.document.is_modified then { a with confirm_mode := ConfirmMode.quit }
      else { a with should_quit := true }
  | Action.save =>
      let r := Document.save env.saveOk a.document
      match r.1 with
      | Except.ok _ => { a with document := r.2, status_message := some "Saved" }
      | Except.error _ => { a with document := r.2, status_message := some "Save failed" }
  | Action.cursorUp => update_selection (cursor_up a)
  | Action.cursorDown => update_selection (cursor_down a)
  | Action.cursorLeft => update_selection (cursor_left a)
  | Action.cursorRight => update_selection (cursor_right a)
  | Action.cursorHome => update_selection (cursor_home a)
  | Action.cursorEnd => update_selection (cursor_end a)
  | Action.pageUp => update_selection (page_up a)
  | Action.pageDown => update_selection (page_down a)
  | Action.gotoBeginning => update_selection { a with cursor := 0, offset := 0 }
  | Action.gotoEnd =>
      update_selection (ensure_cursor_visible { a with cursor := a.document.len })
  | Action.startSelection => start_selection a
  | Action.clearSelection => clear_selection a
  | Action.selectUp => select_up a
  | Action.selectDown => select_down a
  | Action.selectLeft => select_left a
  | Action.selectRight => select_right a
  | Action.copy => copy a
  | Action.copyHex => copy_hex a
  | Action.cut => cut a
  | Action.paste => paste env a
  | Action.toggleMode => { a with hex_mode := !a.hex_mode }
  | Action.toggleEditMode =>
      { a with
        edit_mode :=
          match a.edit_mode with
          | EditMode.overwrite => EditMode.insert
          | EditMode.insert => EditMode.overwrite }
  | Action.toggleEncoding =>
      let e := env.encNext a.encoding
      { a with encoding := e, status_message := some ("Encoding: " ++ env.encName e) }
  | Action.inputHex ch => input_hex ch a
  | Action.inputAscii ch => input_ascii env ch a
  | Action.enterCtrlX =>
      { a with prefix_key := PrefixKey.ctrlX, status_message := some "C-x-" }
  | Action.cancel =>
      { clear_selection
          { a with prefix_key := PrefixKey.none, input_state := InputState.normal } with
        status_message := some "Quit" }
  | Action.undo =>
      let r := Document.undo a.document
      match r.1 with
      | some pos =>
          { ensure_cursor_visible
              { a with document := r.2, cursor := min pos (r.2.data.length - 1) } with
            status_message := some "Undo" }
      | Option.none => { a with document := r.2, status_message := some "Nothing to undo" }
  | Action.redo =>
      let r := Document.redo a.document
      match r.1 with
      | some pos =>
          { ensure_cursor_visible
              { a with document := r.2, cursor := min pos (r.2.data.length - 1) } with
            status_message := some "Redo" }
      | Option.none => { a with document := r.2, status_message := some "Nothing to redo" }
  | Action.startSearch =>
      { a with search_mode := true, search_query := "", search_start_pos := a.cursor }
  | Action.startSearchBack =>
      { a with search_mode := true, search_query := "", search_start_pos := a.cursor }
  | Action.searchNext => if a.search_query ≠ "" then find_next a else a
  | Action.searchPrev => if a.search_query ≠ "" then find_prev a else a
  | Action.startReplace =>
      { a with
        replace_mode := ReplaceMode.enteringSearch
        search_query := ""
        replace_with := ""
        search_start_pos := a.cursor }
  | Action.startGoto => { a with prompt_mode := PromptMode.gotoAddress, prompt_input := "" }
  | Action.openFile => { a with prompt_mode := PromptMode.openFile, prompt_input := "" }
  | Action.saveAs =>
      { a with
        prompt_mode := PromptMode.saveAs
        prompt_input := (docFilename a.document).getD "" }
  | Action.killBuffer =>
      if a.document.is_modified then { a with confirm_mode := ConfirmMode.killBuffer }
      else do_kill_buffer a
  | Action.executeCommand =>
      { a with prompt_mode := PromptMode.command, prompt_input := "", current_command := "" }
  | _ => a

/-- `App::execute_confirmed_action` -/
def execute_confirmed_action (env : Env) (a : App) : App :=
  let mode := a.confirm_mode
  let a := { a with confirm_mode := ConfirmMode.off }
  match mode with
  | ConfirmMode.quit => { a with should_quit := true }
  | ConfirmMode.openFile path => open_file env path a
  | ConfirmMode.killBuffer => do_kill_buffer a
  | ConfirmMode.off => a

/-- `App::handle_confirm_key` -/
def handle_confirm_key (env : Env) (key : KeyEvent) (a : App) : App :=
  let normalized :=
    match key.code with
    | KeyCode.char c => KeyCode.char (normalize_fullwidth c)
    | o => o
  if normalized = KeyCode.char 'y' ∨ normalized = KeyCode.char 'Y' then
    let r := Document.save env.saveOk a.document
    match r.1 with
    | Except.error _ =>
        { a with
          document := r.2
          status_message := some "Save failed"
          confirm_mode := ConfirmMode.off }
    | Except.ok _ => execute_confirmed_action env { a with document := r.2 }
  else if normalized = KeyCode.char 'n' ∨ normalized = KeyCode.char 'N' then
    execute_confirmed_action env a
  else if normalized = KeyCode.char 'c' ∨ normalized = KeyCode.char 'C' ∨
      normalized = KeyCode.esc then
    { a with confirm_mode := ConfirmMode.off, status_message := some "Cancelled" }
  else if normalized = KeyCode.char 'g' ∧ key.ctrl then
    { a with confirm_mode := ConfirmMode.off, status_message := some "Cancelled" }
  else a

/-- `App::dispatch_command` (`str::to_lowercase` modeled per character; the
command names are ASCII, where the two agree). -/
def dispatch_command (env : Env) (cmd : String) (a : App) : App :=
  let c := String.mk ((rustTrimList cmd.data).map Char.toLower)
  if c = "goto" ∨ c = "g" then
    { a with prompt_mode := PromptMode.gotoAddress, prompt_input := "" }
  else if c = "save" ∨ c = "s" then
    let r := Document.save env.saveOk a.document
    match r.1 with
    | Except.ok _ => { a with document := r.2, status_message := some "Saved" }
    | Except.error _ => { a with document := r.2, status_message := some "Save failed" }
  else if c = "quit" ∨ c = "q" then execute env Action.quit a
  else if c = "fill" ∨ c = "f" then
    if a.selection.isNone then { a with status_message := some "No selection" }
    else
      { a with
        current_command := "fill"
        prompt_mode := PromptMode.commandArg
        prompt_input := "" }
  else if c = "insert" ∨ c = "i" then
    { a with
      current_command := "insert"
      prompt_mode := PromptMode.commandArg
      prompt_input := "" }
  else if c = "help" ∨ c = "?" ∨ c = "h" then
    { a with
      status_message := some "Commands: fill(f) insert(i) goto(g) save(s) quit(q) help(?)" }
  else if c = "" then a
  else { a with status_message := some ("Unknown command: " ++ c ++ " (try help)") }

/-- `App::execute_command_with_arg` -/
def execute_command_with_arg (arg : String) (a : App) : App :=
  let cmd := a.current_command
  let a := { a with current_command := "" }
  if cmd = "fill" then cmd_fill arg a
  else if cmd = "insert" then cmd_insert arg a
  else { a with status_message := some ("Unknown command: " ++ cmd) }

/-- `App::execute_prompt` -/
def execute_prompt (env : Env) (a : App) : App :=
  let input := a.prompt_input
  let mode := a.prompt_mode
  let a := { a with prompt_mode := PromptMode.off }
  match mode with
  | PromptMode.gotoAddress => goto_address input a
  | PromptMode.openFile =>
      if a.document.is_modified then { a with confirm_mode := ConfirmMode.openFile input }
      else open_file env input a
  | PromptMode.saveAs => save_as_string env input a
  | PromptMode.command => dispatch_command env input a
  | PromptMode.commandArg => execute_command_with_arg input a
  | PromptMode.off => a

/-- `App::handle_prompt_key` (the Rust or-pattern `Esc | Char('g') if ctrl`
guards BOTH alternatives with `ctrl`). -/
def handle_prompt_key (env : Env) (key : KeyEvent) (a : App) : App :=
  if (key.code = KeyCode.esc ∨ key.code = KeyCode.char 'g') ∧ key.ctrl then
    { a with prompt_mode := PromptMode.off, status_message := some "Cancelled" }
  else if key.code = KeyCode.enter then execute_prompt env a
  else if key.code = KeyCode.backspace then { a with prompt_input := popStr a.prompt_input }
  else
    match key.code with
    | KeyCode.char ch =>
        if !key.ctrl then { a with prompt_input := a.prompt_input.push ch } else a
    | _ => a

/-- `App::handle_replace_key` -/
def handle_replace_key (key : KeyEvent) (a : App) : App :=
  match a.replace_mode with
  | ReplaceMode.enteringSearch =>
      if (key.code = KeyCode.esc ∨ key.code = KeyCode.char 'g') ∧ key.ctrl then
        { ensure_cursor_visible
            { a with replace_mode := ReplaceMode.off, cursor := a.search_start_pos } with
          status_message := some "Cancelled" }
      else if key.code = KeyCode.enter then
        if a.search_query = "" then
          { a with
            replace_mode := ReplaceMode.off
            status_message := some "Empty search pattern" }
        else { a with replace_mode := ReplaceMode.enteringReplace }
      else if key.code = KeyCode.backspace then
        { a with search_query := popStr a.search_query }
      else
        match key.code with
        | KeyCode.char ch =>
            if !key.ctrl then { a with search_query := a.search_query.push ch } else a
        | _ => a
  | ReplaceMode.enteringReplace =>
      if (key.code = KeyCode.esc ∨ key.code = KeyCode.char 'g') ∧ key.ctrl then
        { ensure_cursor_visible
            { a with replace_mode := ReplaceMode.off, cursor := a.search_start_pos } with
          status_message := some "Cancelled" }
      else if key.code = KeyCode.enter then
        find_next_for_replace { a with replace_mode := ReplaceMode.confirming }
      else if key.code = KeyCode.backspace then
        { a with replace_with := popStr a.replace_with }
      else
        match key.code with
        | KeyCode.char ch =>
            if !key.ctrl then { a with replace_with := a.replace_with.push ch } else a
        | _ => a
  | ReplaceMode.confirming =>
      let normalized :=
        match key.code with
        | KeyCode.char c => KeyCode.char (normalize_fullwidth c)
        | o => o
      if normalized = KeyCode.char 'y' ∨ normalized = KeyCode.char 'Y' ∨
          normalized = KeyCode.char ' ' then
        find_next_for_replace (do_replace_current a)
      else if normalized = KeyCode.char 'n' ∨ normalized = KeyCode.char 'N' ∨
          normalized = KeyCode.delete then
        find_next_for_replace a
      else if normalized = KeyCode.char '!' then do_replace_all_remaining a
      else if normalized = KeyCode.char 'q' ∨ normalized = KeyCode.char 'Q' ∨
          normalized = KeyCode.esc then
        { a with
          replace_mode := ReplaceMode.off
          status_message := some "Query replace finished" }
      else if normalized = KeyCode.char 'g' ∧ key.ctrl then
        { a with
          replace_mode := ReplaceMode.off
          status_message := some "Query replace finished" }
      else a
  | ReplaceMode.off => a

/-- `App::handle_search_key` -/
def handle_search_key (key : KeyEvent) (a : App) : App :=
  if (key.code = KeyCode.esc ∨ key.code = KeyCode.char 'g') ∧ key.ctrl then
    { ensure_cursor_visible { a with search_mode := false, cursor := a.search_start_pos } with
      status_message := some "Cancelled" }
  else if key.code = KeyCode.enter then
    let a := { a with search_mode := false }
    if a.search_query ≠ "" then
      { a with
        last_search_query := a.search_query
        status_message := some ("I-search: " ++ a.search_query) }
    else { a with status_message := some "Search cancelled" }
  else if key.code = KeyCode.char 's' ∧ key.ctrl then
    let a :=
      if a.search_query = "" ∧ a.last_search_query ≠ "" then
        { a with search_query := a.last_search_query }
      else a
    find_next a
  else if key.code = KeyCode.char 'r' ∧ key.ctrl then
    let a :=
      if a.search_query = "" ∧ a.last_search_query ≠ "" then
        { a with search_query := a.last_search_query }
      else a
    find_prev a
  else if key.code = KeyCode.backspace then
    let a := { a with search_query := popStr a.search_query }
    if a.search_query = "" then ensure_cursor_visible { a with cursor := a.search_start_pos }
    else do_incremental_search a
  else
    match key.code with
    | KeyCode.char ch =>
        if !key.ctrl then do_incremental_search { a with search_query := a.search_query.push ch }
        else a
    | _ => a

end App

/-- `Action::from_key` (mod.rs): the Emacs keymap; the tuple order
`(key, ctrl, alt, shift)` and the arm order follow the source. -/
def Action.from_key (key : KeyCode) (ctrl alt shift : Bool) : Action :=
  match key, ctrl, alt, shift with
  | KeyCode.char 'x', true, false, false => Action.enterCtrlX
  | KeyCode.char 'g', true, false, false => Action.cancel
  | KeyCode.esc, _, _, _ => Action.cancel
  | KeyCode.char 'f', true, false, false => Action.cursorRight
  | KeyCode.char 'b', true, false, false => Action.cursorLeft
  | KeyCode.char 'n', true, false, false => Action.cursorDown
  | KeyCode.char 'p', true, false, false => Action.cursorUp
  | KeyCode.char 'a', true, false, false => Action.cursorHome
  | KeyCode.char 'e', true, false, false => Action.cursorEnd
  | KeyCode.char 'v', true, false, false => Action.pageDown
  | KeyCode.char 'v', false, true, false => Action.pageUp
  | KeyCode.char '<', false, true, _ => Action.gotoBeginning
  | KeyCode.char '>', false, true, _ => Action.gotoEnd
  | KeyCode.up, false, false, false => Action.cursorUp
  | KeyCode.down, false, false, false => Action.cursorDown
  | KeyCode.left, false, false, false => Action.cursorLeft
  | KeyCode.right, false, false, false => Action.cursorRight
  | KeyCode.up, false, false, true => Action.selectUp
  | KeyCode.down, false, false, true => Action.selectDown
  | KeyCode.left, false, false, true => Action.selectLeft
  | KeyCode.right, false, false, true => Action.selectRight
  | KeyCode.home, _, _, _ => Action.cursorHome
  | KeyCode.endOfLine, _, _, _ => Action.cursorEnd
  | KeyCode.pageUp, _, _, _ => Action.pageUp
  | KeyCode.pageDown, _, _, _ => Action.pageDown
  | KeyCode.tab, false, false, _ => Action.toggleMode
  | KeyCode.insertKey, false, false, _ => Action.toggleEditMode
  | KeyCode.char 'd', true, false, false => Action.delete
  | KeyCode.delete, false, false, _ => Action.delete
  | KeyCode.backspace, false, false, _ => Action.backspace
  | KeyCode.char ' ', true, false, false => Action.startSelection
  | KeyCode.char 'w', true, false, false => Action.cut
  | KeyCode.char 'w', false, true, false => Action.copy
  | KeyCode.char 'y', true, false, false => Action.paste
  | KeyCode.char 'u', true, false, false => Action.undo
  | KeyCode.char '/', true, false, false => Action.redo
  | KeyCode.char 's', true, false, false => Action.startSearch
  | KeyCode.char 'r', true, false, false => Action.startSearchBack
  | KeyCode.char '%', false, true, _ => Action.startReplace
  | KeyCode.f 2, false, false, _ => Action.toggleEncoding
  | _, _, _, _ => Action.none

/-- `Action::from_key_after_ctrl_x` (mod.rs). -/
def Action.from_key_after_ctrl_x (key : KeyCode) (ctrl : Bool) : Action :=
  match key, ctrl with
  | KeyCode.char 'c', true => Action.quit
  | KeyCode.char 's', true => Action.save
  | KeyCode.char 'g', true => Action.cancel
  | KeyCode.esc, _ => Action.cancel
  | _, _ => Action.cancel

namespace App

/-- `App::handle_event`: one step of the input loop, dispatching an event
with the search > replace > prompt > confirm > normal priority order. -/
def handle_event (env : Env) (ev : Event) (a : App) : App :=
  match ev with
  | Event.paste content =>
      if a.search_mode then
        do_incremental_search { a with search_query := a.search_query ++ content }
      else paste_from_terminal content a
  | Event.key k =>
      if !k.press then a
      else if a.search_mode then handle_search_key k a
      else if a.replace_mode ≠ ReplaceMode.off then handle_replace_key k a
      else if a.prompt_mode ≠ PromptMode.off then handle_prompt_key env k a
      else if a.confirm_mode ≠ ConfirmMode.off then handle_confirm_key env k a
      else
        let pa :=
          match a.prefix_key with
          | PrefixKey.none => (a, Action.from_key k.code k.ctrl k.alt k.shift)
          | PrefixKey.ctrlX =>
              ({ a with prefix_key := PrefixKey.none },
                Action.from_key_after_ctrl_x k.code k.ctrl)
        let a := pa.1
        let action := pa.2
        if action ≠ Action.none then execute env action a
        else
          match k.code with
          | KeyCode.char ch =>
              if !k.ctrl ∧ !k.alt then
                if a.hex_mode then execute env (Action.inputHex ch) a
                else execute env (Action.inputAscii ch) a
              else a
          | _ => a
  | Event.focusGained => { a with status_message := some "Focus gained" }
  | Event.focusLost => a
  | Event.other => a
  | Event.noEvent => a

end App

/-- The four elevated-mode fields of the controller state. -/
def modesOf (a : App) : Bool × ReplaceMode × PromptMode × ConfirmMode :=
  (a.search_mode, a.replace_mode, a.prompt_mode, a.confirm_mode)

/-- Number of active elevated modes in a mode tuple. -/
def countModes : Bool × ReplaceMode × PromptMode × ConfirmMode → Nat
  | (s, r, p, c) =>
      (if s then 1 else 0) + (if r ≠ ReplaceMode.off then 1 else 0) +
        (if p ≠ PromptMode.off then 1 else 0) + (if c ≠ ConfirmMode.off then 1 else 0)

/-- Number of elevated controller modes that are currently active. -/
def elevatedCount (a : App) : Nat := countModes (modesOf a)

/-- The mutual-exclusivity invariant: at most one elevated mode is active. -/
def ModeExclusive (a : App) : Prop := elevatedCount a ≤ 1

/-- One controller step under some environment and event. -/
def Step (x y : App) : Prop := ∃ env ev, y = App.handle_event env ev x

/-- Controller states reachable from the initial state by event steps. -/
def Reachable (a : App) : Prop := Relation.ReflTransGen Step App.new a

/-! ## Generic list lemmas -/

theorem list_set_getD_self :
    ∀ (l : List Nat) (n : Nat), n < l.length → l.set n (l.getD n 0) = l
  | [], _, h => by simp at h
  | _ :: _, 0, _ => by simp
  | a :: l, n + 1, h => by
    simp only [List.getD_cons_succ, List.set_cons_succ]
    exact congrArg (a :: ·) (list_set_getD_self l n (by simpa using h))

theorem list_insertIdx_getD_eraseIdx :
    ∀ (l : List Nat) (n : Nat), n < l.length → (l.eraseIdx n).insertIdx n (l.getD n 0) = l
  | [], _, h => by simp at h
  | _ :: _, 0, _ => by simp
  | a :: l, n + 1, h => by
    simp only [List.getD_cons_succ, List.eraseIdx_cons_succ, List.insertIdx_succ_cons]
    exact congrArg (a :: ·) (list_insertIdx_getD_eraseIdx l n (by simpa using h))

/-! ## Document lemmas -/

theorem undoN_succ_back (n : Nat) (d : Document) :
    Document.undoN (n + 1) d = (Document.undo (Document.undoN n d)).2 := by
  induction n generalizing d with
  | zero => rfl
  | succ n ih =>
      show Document.undoN (n + 1) (Document.undo d).2 = _
      rw [ih]
      rfl

/-- Shape of `undo` on a non-empty undo stack. -/
theorem Document.undo_cons (d : Document) (op : UndoOp) (rest : List UndoOp)
    (h : d.undo_stack = op :: rest) :
    Document.undo d =
      (some (op.undoOffset (op.invApply d.data).length),
        { d with
          data := op.invApply d.data
          undo_stack := rest
          redo_stack := op :: d.redo_stack
          modified := !rest.isEmpty }) := by
  cases op <;> simp [Document.undo, h, UndoOp.invApply, UndoOp.undoOffset]

/-- Shape of `redo` on a non-empty redo stack (state component). -/
theorem Document.redo_cons (d : Document) (op : UndoOp) (rest : List UndoOp)
    (h : d.redo_stack = op :: rest) :
    (Document.redo d).2 =
      { d with
        data := op.fwdApply d.data
        redo_stack := rest
        undo_stack := op :: d.undo_stack
        modified := true } := by
  cases op <;> simp [Document.redo, h, UndoOp.fwdApply]

/-- A successful mutation either is a no-op `set` (equal value) or pushes
exactly one operation whose inverse recovers the previous contents. -/
theorem Document.applyMut_shape (d : Document) (m : Mutation) (d₂ : Document)
    (h : Document.applyMut d m = some d₂) :
    d₂ = d ∨
      ∃ op : UndoOp,
        d₂ =
          { d with
            data := op.fwdApply d.data
            modified := true
            undo_stack := op :: d.undo_stack
            redo_stack := [] } ∧
        op.invApply (op.fwdApply d.data) = d.data := by
  cases m with
  | set pos v =>
      unfold Document.applyMut Document.set at h
      simp only [] at h
      by_cases hlt : pos < d.data.length
      · rw [if_pos hlt] at h
        by_cases hne : d.data.getD pos 0 ≠ v
        · rw [if_pos hne] at h
          right
          refine ⟨UndoOp.set pos (d.data.getD pos 0) v, (Option.some.inj h).symm, ?_⟩
          show (d.data.set pos v).set pos (d.data.getD pos 0) = d.data
          rw [List.set_set]
          exact list_set_getD_self d.data pos hlt
        · rw [if_neg hne] at h
          exact Or.inl (Option.some.inj h).symm
      · rw [if_neg hlt] at h
        exact absurd h (by simp)
  | insert pos v =>
      unfold Document.applyMut Document.insert at h
      simp only [] at h
      by_cases hle : pos ≤ d.data.length
      · rw [if_pos hle] at h
        right
        exact
          ⟨UndoOp.insert pos v, (Option.some.inj h).symm, List.eraseIdx_insertIdx pos d.data⟩
      · rw [if_neg hle] at h
        exact absurd h (by simp)
  | delete pos =>
      unfold Document.applyMut Document.delete at h
      simp only [] at h
      by_cases hlt : pos < d.data.length
      · rw [if_pos hlt] at h
        right
        exact
          ⟨UndoOp.delete pos (d.data.getD pos 0), (Option.some.inj h).symm,
            list_insertIdx_getD_eraseIdx d.data pos hlt⟩
      · rw [if_neg hlt] at h
        exact absurd h (by simp)

/-- A successful mutation sequence can be fully reverted: some `n` operations
were recorded, and `n` undos restore the contents and the undo stack (and the
whole document when nothing was recorded). -/
theorem Document.applySeq_restore (ms : List Mutation) :
    ∀ d d' : Document, Document.applySeq d ms = some d' →
      ∃ n, d'.undo_stack.length = d.undo_stack.length + n ∧
        (Document.undoN n d').data = d.data ∧
        (Document.undoN n d').undo_stack = d.undo_stack ∧
        (n = 0 → d' = d) ∧
        (0 < n → (Document.undoN n d').modified = !d.undo_stack.isEmpty) := by
  induction ms with
  | nil =>
      intro d d' h
      simp only [Document.applySeq, Option.some.injEq] at h
      subst h
      exact ⟨0, rfl, rfl, rfl, fun _ => rfl, fun h0 => absurd h0 (by omega)⟩
  | cons m ms ih =>
      intro d d' h
      rw [Document.applySeq] at h
      rcases hm : Document.applyMut d m with _ | d₂ <;> rw [hm] at h
      · exact absurd h (by simp)
      obtain ⟨n₂, hlen, hdata, hstack, hzero, hmod⟩ := ih d₂ d' h
      rcases Document.applyMut_shape d m d₂ hm with hd | ⟨op, hd₂, hinv⟩
      · subst hd
        exact ⟨n₂, hlen, hdata, hstack, hzero, hmod⟩
      · have hstack2 : d₂.undo_stack = op :: d.undo_stack := by rw [hd₂]
        have hdata2 : d₂.data = op.fwdApply d.data := by rw [hd₂]
        have hstack' : (Document.undoN n₂ d').undo_stack = op :: d.undo_stack := by
          rw [hstack, hstack2]
        refine ⟨n₂ + 1, ?_, ?_, ?_, ?_, ?_⟩
        · rw [hlen, hstack2]
          simp only [List.length_cons]
          omega
        · rw [undoN_succ_back, Document.undo_cons _ op _ hstack']
          show op.invApply (Document.undoN n₂ d').data = d.data
          rw [hdata, hdata2]
          exact hinv
        · rw [undoN_succ_back, Document.undo_cons _ op _ hstack']
        · omega
        · intro _
          rw [undoN_succ_back, Document.undo_cons _ op _ hstack']

/-! ## Claim C1 -/

/-- C1 (amended): for every document and every sequence of successful
`set`/`insert`/`delete` calls, undoing as many times as the sequence RECORDED
operations (a `set` writing the value already present succeeds but records
nothing) restores the byte contents byte-for-byte and restores the undo log;
whenever at least one operation was recorded, the resulting `modified` flag is
`!undo_stack.isEmpty` of the pre-sequence document, so the flag returns to its
prior value exactly when it agreed with the undo log beforehand — after a
save (which clears the flag but keeps the log) the flag is NOT restored even
though the contents are. -/
theorem c1_undo_restores_buffer (d : Document) (ms : List Mutation) (d' : Document)
    (hseq : Document.applySeq d ms = some d') :
    (Document.undoN (d'.undo_stack.length - d.undo_stack.length) d').data = d.data ∧
      (Document.undoN (d'.undo_stack.length - d.undo_stack.length) d').undo_stack =
        d.undo_stack ∧
      (0 < d'.undo_stack.length - d.undo_stack.length →
        (Document.undoN (d'.undo_stack.length - d.undo_stack.length) d').modified =
          !d.undo_stack.isEmpty) ∧
      (d.modified = !d.undo_stack.isEmpty →
        (Document.undoN (d'.undo_stack.length - d.undo_stack.length) d').modified =
          d.modified) := by
  obtain ⟨n, hlen, hdata, hstack, hzero, hmodn⟩ := Document.applySeq_restore ms d d' hseq
  have hn : d'.undo_stack.length - d.undo_stack.length = n := by omega
  rw [hn]
  refine ⟨hdata, hstack, fun hpos => hmodn hpos, fun hmod => ?_⟩
  rcases Nat.eq_zero_or_pos n with h0 | hpos
  · subst h0
    rw [hzero rfl]
    rfl
  · rw [hmodn hpos, hmod]

/-- Witness for C1: from `[5]`, insert `7` at 1 and set position 0 to `9`
(two recorded operations), then undo twice. -/
theorem c1_witness :
    Document.applySeq (Document.from_bytes [5]) [Mutation.insert 1 7, Mutation.set 0 9] =
        some
          { path := Option.none, data := [9, 7], modified := true, readonly := false
            undo_stack := [UndoOp.set 0 5 9, UndoOp.insert 1 7], redo_stack := [] } ∧
      (Document.undoN 2
          { path := Option.none, data := [9, 7], modified := true, readonly := false
            undo_stack := [UndoOp.set 0 5 9, UndoOp.insert 1 7], redo_stack := [] }).data =
        [5] ∧
      (Document.undoN 2
          { path := Option.none, data := [9, 7], modified := true, readonly := false
            undo_stack := [UndoOp.set 0 5 9, UndoOp.insert 1 7], redo_stack := [] }).modified =
        false := by
  have h :=
    c1_undo_restores_buffer (Document.from_bytes [5])
      [Mutation.insert 1 7, Mutation.set 0 9]
      { path := Option.none, data := [9, 7], modified := true, readonly := false
        undo_stack := [UndoOp.set 0 5 9, UndoOp.insert 1 7], redo_stack := [] }
      (by decide)
  exact ⟨by decide, by simpa using h.1, by simpa using h.2.2.2 (by decide)⟩

/-- Counterexample for C1 as stated, in both of its failure modes.  First,
calls are not recorded operations: on a document holding `[2]` with one
recorded edit, the one-call sequence `set 0 2` succeeds (it is a no-op), yet
a single `undo` does not return to the pre-sequence contents `[2]` — it
reverts the earlier edit instead.  Second, the `modified` flag is not
restored after a save: `save_as` clears the flag but keeps the undo log, so
after a recorded `set 0 3` on the saved document (flag `false`) a single
`undo` restores the contents yet leaves the flag `true`. -/
theorem c1_counterexample :
    (Document.applySeq ((Document.set (Document.from_bytes [1]) 0 2).2)
          [Mutation.set 0 2] =
        some ((Document.set (Document.from_bytes [1]) 0 2).2) ∧
      (Document.undoN 1 ((Document.set (Document.from_bytes [1]) 0 2).2)).data ≠
        ((Document.set (Document.from_bytes [1]) 0 2).2).data) ∧
    Document.applySeq
        ((Document.save_as true ((Document.set (Document.from_bytes [1]) 0 2).2) "f").2)
        [Mutation.set 0 3] =
      some
        ((Document.set
              ((Document.save_as true ((Document.set (Document.from_bytes [1]) 0 2).2)
                    "f").2)
              0 3).2) ∧
    ((Document.save_as true ((Document.set (Document.from_bytes [1]) 0 2).2) "f").2).modified =
      false ∧
    (Document.undoN 1
          ((Document.set
                ((Document.save_as true ((Document.set (Document.from_bytes [1]) 0 2).2)
                      "f").2)
                0 3).2)).data =
      ((Document.save_as true ((Document.set (Document.from_bytes [1]) 0 2).2) "f").2).data ∧
    (Document.undoN 1
          ((Document.set
                ((Document.save_as true ((Document.set (Document.from_bytes [1]) 0 2).2)
                      "f").2)
                0 3).2)).modified =
      true := by
  exact ⟨⟨by decide, by decide⟩, by decide, by decide, by decide, by decide⟩

/-! ## Claim C10 -/

/-- C10: an out-of-bounds `set` (`pos ≥ len`), `insert` (`pos > len`) or
`delete` (`pos ≥ len`) returns an `OutOfBounds` error carrying the position
and leaves the document — contents, `modified` flag, undo stack and redo
stack — entirely unchanged. -/
theorem c10_oob_leaves_document_unchanged (d : Document) (pos value : Nat) :
    (d.data.length ≤ pos →
      Document.set d pos value = (Except.error (BufferError.outOfBounds pos), d)) ∧
    (d.data.length < pos →
      Document.insert d pos value = (Except.error (BufferError.outOfBounds pos), d)) ∧
    (d.data.length ≤ pos →
      Document.delete d pos = (Except.error (BufferError.outOfBounds pos), d)) := by
  refine ⟨fun h => ?_, fun h => ?_, fun h => ?_⟩
  · simp [Document.set, Nat.not_lt.mpr h]
  · simp [Document.insert, Nat.not_le.mpr h]
  · simp [Document.delete, Nat.not_lt.mpr h]

/-! ## Claim C5 -/

/-- C5 (amended): on a well-formed undo log, `undo` pops the most recent
operation and applies its inverse to the contents; it returns `none` exactly
when the log is empty, and otherwise returns the set position for `Set`, the
delete position for `Delete`, and for `Insert` the position just BEFORE the
insert point (`pos.saturating_sub(1)`), clamped into `[0, len-1]` of the
resulting buffer; every returned offset lies in that range. -/
theorem c5_undo_pops_and_reports_offset (d : Document)
    (hv : undoOpsValid d.undo_stack d.data = true) :
    (d.undo_stack = [] → Document.undo d = (Option.none, d)) ∧
    (∀ op rest, d.undo_stack = op :: rest →
      (Document.undo d).2.data = op.invApply d.data ∧
      (Document.undo d).2.undo_stack = rest ∧
      (Document.undo d).1 = some (op.undoOffset (op.invApply d.data).length) ∧
      ∀ pos, (Document.undo d).1 = some pos →
        pos ≤ (Document.undo d).2.data.length - 1) := by
  constructor
  · intro h
    simp [Document.undo, h]
  · intro op rest h
    rw [Document.undo_cons d op rest h]
    refine ⟨rfl, rfl, rfl, ?_⟩
    intro pos hpos
    replace hpos : op.undoOffset (op.invApply d.data).length = pos := Option.some.inj hpos
    rw [h] at hv
    cases op with
    | set p old new =>
        have hp : p < d.data.length := by
          simp only [undoOpsValid, Bool.and_eq_true, decide_eq_true_eq] at hv
          exact hv.1.1
        subst hpos
        simp only [UndoOp.undoOffset, UndoOp.invApply, List.length_set]
        omega
    | insert p v =>
        subst hpos
        simp only [UndoOp.undoOffset, UndoOp.invApply]
        exact Nat.min_le_right _ _
    | delete p v =>
        have hp : p ≤ d.data.length := by
          simp only [undoOpsValid, Bool.and_eq_true, decide_eq_true_eq] at hv
          exact hv.1
        subst hpos
        simp only [UndoOp.undoOffset, UndoOp.invApply, List.length_insertIdx p d.data hp]
        omega

/-- Witness for C5: undoing the insertion of `7` at position 1 of `[10,20]`
removes the byte and reports offset 0 (= `min (1-1) (len-1)`). -/
theorem c5_witness :
    (Document.undo ((Document.insert (Document.from_bytes [10, 20]) 1 7).2)).1 = some 0 ∧
    (Document.undo ((Document.insert (Document.from_bytes [10, 20]) 1 7).2)).2.data =
      [10, 20] := by
  have h :=
    c5_undo_pops_and_reports_offset ((Document.insert (Document.from_bytes [10, 20]) 1 7).2)
      (by decide)
  have h2 := h.2 (UndoOp.insert 1 7) [] (by decide)
  exact ⟨by simpa using h2.2.2.1, by simpa using h2.1⟩

/-- Counterexample for C5 as stated: undoing the insertion at position 1 of a
then-4-byte buffer returns offset 0, not the insert point 1 clamped into
`[0, 2]` (which is 1). -/
theorem c5_counterexample :
    (Document.undo ((Document.insert (Document.from_bytes [10, 20, 30]) 1 99).2)).1 =
        some 0 ∧
      min 1
          ((Document.undo ((Document.insert (Document.from_bytes [10, 20, 30]) 1 99).2)).2.data.length -
            1) =
        1 ∧
      (Document.undo ((Document.insert (Document.from_bytes [10, 20, 30]) 1 99).2)).1 ≠
        some 1 := by
  exact ⟨by decide, by decide, by decide⟩

/-! ## Claim C9 -/

/-- C9 (amended): after any successful mutation that actually records an
operation (a `set` writing the value already present records nothing), the
redo log is empty — so a `redo` with no preceding `undo` yields nothing, and
any recorded mutation between an `undo` and a `redo` leaves the `redo`
nothing to do — and `undo` followed immediately by `redo` reproduces the
post-mutation document exactly (contents, flags and both logs). -/
theorem c9_redo_reproduces_mutation (d : Document) (m : Mutation) (d₂ : Document)
    (h : Document.applyMut d m = some d₂)
    (hrec : d₂.undo_stack.length = d.undo_stack.length + 1) :
    d₂.redo_stack = [] ∧
    Document.redo d₂ = (Option.none, d₂) ∧
    (Document.redo (Document.undo d₂).2).2 = d₂ := by
  rcases Document.applyMut_shape d m d₂ h with hd | ⟨op, hd₂, hinv⟩
  · rw [hd] at hrec
    omega
  · subst hd₂
    refine ⟨rfl, rfl, ?_⟩
    rw [Document.undo_cons _ op d.undo_stack rfl]
    rw [Document.redo_cons _ op [] rfl]
    rw [hinv]

/-- Witness for C9: set position 0 of `[3]` to `4`; the redo log is empty and
`undo` then `redo` reproduces the post-mutation document. -/
theorem c9_witness :
    Document.redo ((Document.set (Document.from_bytes [3]) 0 4).2) =
        (Option.none, (Document.set (Document.from_bytes [3]) 0 4).2) ∧
      (Document.redo
            (Document.undo ((Document.set (Document.from_bytes [3]) 0 4).2)).2).2 =
        (Document.set (Document.from_bytes [3]) 0 4).2 := by
  have h :=
    c9_redo_reproduces_mutation (Document.from_bytes [3]) (Mutation.set 0 4)
      ((Document.set (Document.from_bytes [3]) 0 4).2) (by decide) (by decide)
  exact ⟨h.2.1, h.2.2⟩

/-- Counterexample for C9 as stated: after `set 0 2` on `[1]` and an `undo`,
the successful no-op call `set 0 1` does NOT clear the redo log, and the
subsequent `redo` succeeds (returning offset 0 and re-applying the edit)
instead of yielding nothing. -/
theorem c9_counterexample :
    (Document.set ((Document.undo ((Document.set (Document.from_bytes [1]) 0 2).2)).2) 0
          1).1 =
        Except.ok () ∧
      (Document.redo
            ((Document.set
                  ((Document.undo ((Document.set (Document.from_bytes [1]) 0 2).2)).2) 0
                  1).2)).1 =
        some 0 ∧
      (Document.redo
            ((Document.set
                  ((Document.undo ((Document.set (Document.from_bytes [1]) 0 2).2)).2) 0
                  1).2)).1 ≠
        Option.none := by
  refine ⟨rfl, by decide, by decide⟩

/-! ## Claim C3 -/

/-- C3 (amended): `looks_like_hex` accepts exactly the strings whose
normalization is non-empty, of even length and all hex digits — where the
normalization drops the separator characters, `x`/`X`, and ALSO every other
character that is not a (half- or full-width) hex digit; only the `x` of a
`0x` prefix is dropped, the `0` is kept as a digit, so `"0xFF"` normalizes to
`"0FF"` (odd length) and is rejected, while e.g. `"zz00"` is accepted.
`"DE AD BE EF"`, `"deadbeef"` and full-width `"ＦＦ"` are accepted; `"abc"`
is rejected. -/
theorem c3_looks_like_hex_characterization :
    (∀ s : String,
        looks_like_hex s = true ↔
          normalize_hex_string s ≠ [] ∧ (normalize_hex_string s).length % 2 = 0 ∧
            (normalize_hex_string s).all is_ascii_hexdigit = true) ∧
    looks_like_hex "DE AD BE EF" = true ∧
    looks_like_hex "deadbeef" = true ∧
    looks_like_hex "ＦＦ" = true ∧
    looks_like_hex "abc" = false ∧
    looks_like_hex "0xFF" = false ∧
    looks_like_hex "zz00" = true := by
  refine ⟨fun s => ?_, by decide, by decide, by decide, by decide, by decide, by decide⟩
  unfold looks_like_hex
  by_cases hs : s.data.isEmpty
  · rw [if_pos hs]
    have hnorm : normalize_hex_string s = [] := by
      unfold normalize_hex_string
      rw [List.isEmpty_iff.mp hs]
      rfl
    simp [hnorm]
  · rw [if_neg hs]
    simp only [decide_eq_true_eq]
    constructor
    · rintro ⟨h1, h2, h3⟩
      refine ⟨?_, h1, h3⟩
      intro hnil
      rw [hnil] at h2
      simp at h2
    · rintro ⟨h0, h1, h3⟩
      have hlen : 0 < (normalize_hex_string s).length := List.length_pos.mpr h0
      exact ⟨h1, by omega, h3⟩

/-- Counterexample for C3 as stated: the claim says `"0xFF"` is accepted
(stripped to `"FF"`), but the code rejects it — only the `x` is dropped, so
the normalization is the odd-length `"0FF"`. -/
theorem c3_counterexample :
    looks_like_hex "0xFF" = false ∧ normalize_hex_string "0xFF" = ['0', 'F', 'F'] := by
  exact ⟨by decide, by decide⟩

/-! ## Claim C2 -/

/-- C2 (amended): in the Confirming state over buffer `b"aaa"` with search
text `"a"` and replacement text `"bb"`, pressing `!` replaces all three
matches and reports count 3 — but `"bb"` resolves as HEX (one byte `0xBB`),
not as the literal text `b"bb"`, so the buffer becomes `[0xBB, 0xBB, 0xBB]`;
and the hex-or-literal resolution is the same function for search queries,
replacement text and pasted content. -/
theorem c2_replace_all_and_uniform_resolution :
    (App.handle_replace_key ⟨KeyCode.char '!', false, false, false, true⟩
          { App.new with
            document := Document.from_bytes [0x61, 0x61, 0x61]
            search_query := "a"
            replace_with := "bb"
            replace_mode := ReplaceMode.confirming }).document.data =
        [0xBB, 0xBB, 0xBB] ∧
      (App.handle_replace_key ⟨KeyCode.char '!', false, false, false, true⟩
            { App.new with
              document := Document.from_bytes [0x61, 0x61, 0x61]
              search_query := "a"
              replace_with := "bb"
              replace_mode := ReplaceMode.confirming }).status_message =
        some "Replaced 3 occurrences" ∧
      (App.handle_replace_key ⟨KeyCode.char '!', false, false, false, true⟩
            { App.new with
              document := Document.from_bytes [0x61, 0x61, 0x61]
              search_query := "a"
              replace_with := "bb"
              replace_mode := ReplaceMode.confirming }).replace_mode =
        ReplaceMode.off ∧
      (∀ s : String, search_query_to_bytes s = replace_with_to_bytes s) ∧
      (∀ s : String, search_query_to_bytes s = paste_content_to_bytes s) := by
  exact ⟨by decide, by decide, by decide, fun _ => rfl, fun _ => rfl⟩

/-- Counterexample for C2 as stated: the scenario leaves the buffer equal to
`[0xBB, 0xBB, 0xBB]`, not byte-for-byte `b"bbbbbb"` — the replacement text
`"bb"` looks like hex and resolves to the single byte `0xBB`. -/
theorem c2_counterexample :
    (App.handle_replace_key ⟨KeyCode.char '!', false, false, false, true⟩
          { App.new with
            document := Document.from_bytes [0x61, 0x61, 0x61]
            search_query := "a"
            replace_with := "bb"
            replace_mode := ReplaceMode.confirming }).document.data ≠
        strBytes "bbbbbb" ∧
      replace_with_to_bytes "bb" = [0xBB] ∧ strBytes "bbbbbb" = [0x62, 0x62, 0x62, 0x62, 0x62, 0x62] := by
  exact ⟨by decide, by decide, by decide⟩



/-! ## Claim C4 -/

theorem windowsPosition_spec (pat : List Nat) (hne : pat ≠ []) :
    ∀ (l : List Nat) (i : Nat),
      windowsPosition pat l = some i ↔
        ((l.drop i).take pat.length = pat ∧ i + pat.length ≤ l.length ∧
          ∀ j, j < i → (l.drop j).take pat.length ≠ pat) := by
  intro l
  induction l with
  | nil =>
      intro i
      constructor
      · intro h; exact absurd h (by simp [windowsPosition])
      · rintro ⟨-, h2, -⟩
        exfalso
        have h2' : i = 0 ∧ pat = [] := by simpa using h2
        exact hne h2'.2
  | cons a t ih =>
      intro i
      unfold windowsPosition
      by_cases ht : (a :: t).take pat.length = pat
      · rw [if_pos ht]
        constructor
        · intro h
          obtain rfl : i = 0 := (Option.some.inj h).symm
          refine ⟨by simpa using ht, ?_, by omega⟩
          have := congrArg List.length ht
          simp only [List.length_take, List.length_cons] at this
          simp only [List.length_cons]
          omega
        · rintro ⟨h1, h2, h3⟩
          rcases Nat.eq_zero_or_pos i with rfl | hi
          · rfl
          · exact absurd ht (by simpa using h3 0 hi)
      · rw [if_neg ht]
        constructor
        · intro h
          rw [Option.map_eq_some'] at h
          obtain ⟨i', hi', rfl⟩ := h
          obtain ⟨h1, h2, h3⟩ := (ih i').mp hi'
          refine ⟨by simpa [List.drop_succ_cons] using h1, by simp; omega, ?_⟩
          intro j hj
          cases j with
          | zero => simpa using ht
          | succ j' =>
              have := h3 j' (by omega)
              simpa [List.drop_succ_cons] using this
        · rintro ⟨h1, h2, h3⟩
          cases i with
          | zero => exact absurd (by simpa using h1) ht
          | succ i' =>
              have hwp : windowsPosition pat t = some i' := by
                refine (ih i').mpr ⟨by simpa [List.drop_succ_cons] using h1, ?_, ?_⟩
                · simp at h2; omega
                · intro j hj
                  have := h3 (j + 1) (by omega)
                  simpa [List.drop_succ_cons] using this
              rw [hwp]
              rfl

theorem windowsRPosition_spec (pat : List Nat) (hne : pat ≠ []) :
    ∀ l : List Nat,
      (windowsRPosition pat l = none ↔
        ∀ i, i + pat.length ≤ l.length → (l.drop i).take pat.length ≠ pat) ∧
      (∀ i, windowsRPosition pat l = some i ↔
        ((l.drop i).take pat.length = pat ∧ i + pat.length ≤ l.length ∧
          ∀ j, i < j → j + pat.length ≤ l.length → (l.drop j).take pat.length ≠ pat)) := by
  intro l
  induction l with
  | nil =>
      constructor
      · constructor
        · intro _ i hi
          exfalso
          have h2 : i = 0 ∧ pat = [] := by simpa using hi
          exact hne h2.2
        · intro _; rfl
      · intro i
        constructor
        · intro h; exact absurd h (by simp [windowsRPosition])
        · rintro ⟨-, h2, -⟩
          exfalso
          have h2' : i = 0 ∧ pat = [] := by simpa using h2
          exact hne h2'.2
  | cons a t ih =>
      obtain ⟨ihn, ihs⟩ := ih
      have hstep : windowsRPosition pat (a :: t) =
          match windowsRPosition pat t with
          | some i => some (i + 1)
          | none => if (a :: t).take pat.length = pat then some 0 else none := rfl
      rcases hwt : windowsRPosition pat t with _ | i'
      · -- no match in t
        have hnt := ihn.mp hwt
        by_cases ht : (a :: t).take pat.length = pat
        · -- match at 0
          constructor
          · constructor
            · intro h; rw [hstep, hwt, if_pos ht] at h; exact absurd h (by simp)
            · intro hall
              exfalso
              have hlen : pat.length ≤ t.length + 1 := by
                have := congrArg List.length ht
                simp only [List.length_take, List.length_cons] at this
                omega
              exact hall 0 (by simpa using hlen) (by simpa using ht)
          · intro i
            rw [hstep, hwt, if_pos ht]
            constructor
            · intro h
              obtain rfl : i = 0 := (Option.some.inj h).symm
              have hlen : pat.length ≤ t.length + 1 := by
                have := congrArg List.length ht
                simp only [List.length_take, List.length_cons] at this
                omega
              refine ⟨by simpa using ht, by simpa using hlen, ?_⟩
              intro j hj hjfit
              cases j with
              | zero => omega
              | succ j' =>
                  have := hnt j' (by simp at hjfit; omega)
                  simpa [List.drop_succ_cons] using this
            · rintro ⟨h1, h2, h3⟩
              rcases Nat.eq_zero_or_pos i with rfl | hi
              · rfl
              · exfalso
                cases i with
                | zero => omega
                | succ i'' =>
                    have := hnt i'' (by simp at h2; omega)
                    exact this (by simpa [List.drop_succ_cons] using h1)
        · -- no match at all
          constructor
          · constructor
            · intro _ i hi
              cases i with
              | zero => simpa using ht
              | succ i'' =>
                  have := hnt i'' (by simp at hi; omega)
                  simpa [List.drop_succ_cons] using this
            · intro _; rw [hstep, hwt, if_neg ht]
          · intro i
            rw [hstep, hwt, if_neg ht]
            constructor
            · intro h; exact absurd h (by simp)
            · rintro ⟨h1, h2, -⟩
              exfalso
              cases i with
              | zero => exact ht (by simpa using h1)
              | succ i'' =>
                  have := hnt i'' (by simp at h2; omega)
                  exact this (by simpa [List.drop_succ_cons] using h1)
      · -- last match in t at i'
        obtain ⟨ht1, ht2, ht3⟩ := (ihs i').mp hwt
        constructor
        · constructor
          · intro h; rw [hstep, hwt] at h; exact absurd h (by simp)
          · intro hall
            exfalso
            exact hall (i' + 1) (by simp; omega) (by simpa [List.drop_succ_cons] using ht1)
        · intro i
          rw [hstep, hwt]
          constructor
          · intro h
            obtain rfl : i = i' + 1 := (Option.some.inj h).symm
            refine ⟨by simpa [List.drop_succ_cons] using ht1, by simp; omega, ?_⟩
            intro j hj hjfit
            cases j with
            | zero => omega
            | succ j' =>
                have := ht3 j' (by omega) (by simp at hjfit; omega)
                simpa [List.drop_succ_cons] using this
          · rintro ⟨h1, h2, h3⟩
            cases i with
            | zero =>
                exfalso
                exact h3 (i' + 1) (by omega) (by simp; omega)
                  (by simpa [List.drop_succ_cons] using ht1)
            | succ i'' =>
                -- the conditions pin i'' to be the last match in t, i.e. i'' = i'
                have hw : windowsRPosition pat t = some i'' := by
                  refine (ihs i'').mpr ⟨by simpa [List.drop_succ_cons] using h1, ?_, ?_⟩
                  · simp at h2; omega
                  · intro j hj hjfit
                    have := h3 (j + 1) (by omega) (by simp; omega)
                    simpa [List.drop_succ_cons] using this
                rw [hwt] at hw
                have : i' = i'' := Option.some.inj hw
                simp [this]

theorem drop_take_take (l : List Nat) (se i k : Nat) (h : i + k ≤ se) :
    ((l.take se).drop i).take k = (l.drop i).take k := by
  rw [List.drop_take, List.take_take]
  congr 1
  omega

theorem find_pattern_spec (data pat : List Nat) (s p : Nat) :
    find_pattern data pat s = some p ↔
      (s ≤ p ∧ occursAt data pat p ∧ ∀ q, s ≤ q → q < p → ¬ occursAt data pat q) := by
  unfold find_pattern
  by_cases hg : pat.isEmpty = true ∨ data.length < s + pat.length
  · rw [if_pos hg]
    constructor
    · intro h; exact absurd h (by simp)
    · rintro ⟨hsp, ⟨hne, hfit, -⟩, -⟩
      exfalso
      rcases hg with he | hl
      · exact hne (List.isEmpty_iff.mp he)
      · omega
  · rw [if_neg hg]
    push_neg at hg
    obtain ⟨hne', hfit⟩ := hg
    have hne : pat ≠ [] := fun h => hne' (by simp [h])
    constructor
    · intro h
      rw [Option.map_eq_some'] at h
      obtain ⟨i, hw, rfl⟩ := h
      obtain ⟨h1, h2, h3⟩ := (windowsPosition_spec pat hne (data.drop s) i).mp hw
      rw [List.length_drop] at h2
      rw [List.drop_drop] at h1
      refine ⟨by omega, ⟨hne, by omega, ?_⟩, ?_⟩
      · have : s + i = i + s := by omega
        rw [this] at h1
        exact h1
      · rintro q hsq hqp ⟨-, -, htq⟩
        have hq := h3 (q - s) (by omega)
        apply hq
        rw [List.drop_drop]
        have : s + (q - s) = q := by omega
        rw [this]
        exact htq
    · rintro ⟨hsp, ⟨-, hfit2, htp⟩, hmin⟩
      have hw : windowsPosition pat (data.drop s) = some (p - s) := by
        refine (windowsPosition_spec pat hne (data.drop s) (p - s)).mpr ⟨?_, ?_, ?_⟩
        · rw [List.drop_drop]
          have : s + (p - s) = p := by omega
          rw [this]
          exact htp
        · rw [List.length_drop]; omega
        · intro j hj htj
          apply hmin (s + j) (by omega) (by omega)
          refine ⟨hne, by omega, ?_⟩
          rw [List.drop_drop] at htj
          exact htj
      rw [hw]
      simp only [Option.map_some', Option.some.injEq]
      omega

theorem find_pattern_reverse_spec (data pat : List Nat) (e p : Nat) :
    find_pattern_reverse data pat e = some p ↔
      (occursAt data pat p ∧ p + pat.length ≤ min e data.length ∧
        ∀ q, p < q → q + pat.length ≤ min e data.length → ¬ occursAt data pat q) := by
  unfold find_pattern_reverse
  by_cases hg : pat.isEmpty = true ∨ e = 0
  · rw [if_pos hg]
    constructor
    · intro h; exact absurd h (by simp)
    · rintro ⟨⟨hne, -, -⟩, h2, -⟩
      exfalso
      rcases hg with he | he
      · exact hne (List.isEmpty_iff.mp he)
      · subst he
        have hp : pat.length = 0 := by omega
        exact hne (List.eq_nil_of_length_eq_zero hp)
  · rw [if_neg hg]
    push_neg at hg
    obtain ⟨hne', -⟩ := hg
    have hne : pat ≠ [] := fun h => hne' (by simp [h])
    by_cases hse : min e data.length < pat.length
    · rw [if_pos hse]
      constructor
      · intro h; exact absurd h (by simp)
      · rintro ⟨-, h2, -⟩
        exfalso
        omega
    · rw [if_neg hse]
      have hlen_take : (data.take (min e data.length)).length = min e data.length := by
        rw [List.length_take]
        omega
      obtain ⟨-, hsSpec⟩ := windowsRPosition_spec pat hne (data.take (min e data.length))
      rw [hsSpec p]
      constructor
      · rintro ⟨h1, h2, h3⟩
        rw [hlen_take] at h2
        rw [drop_take_take data _ p _ h2] at h1
        refine ⟨⟨hne, by omega, h1⟩, h2, ?_⟩
        rintro q hq hqfit ⟨-, -, htq⟩
        have := h3 q hq (by rw [hlen_take]; exact hqfit)
        apply this
        rw [drop_take_take data _ q _ hqfit]
        exact htq
      · rintro ⟨⟨-, hfitp, htp⟩, h2, h3⟩
        refine ⟨?_, ?_, ?_⟩
        · rw [drop_take_take data _ p _ h2]
          exact htp
        · rw [hlen_take]; exact h2
        · intro j hj hjfit htj
          rw [hlen_take] at hjfit
          rw [drop_take_take data _ j _ hjfit] at htj
          exact h3 j hj hjfit ⟨hne, by omega, htj⟩

/-- C4 (amended): forward search returns the offset of the first occurrence
of the pattern at or after the start index; backward search returns the
offset of the last occurrence that lies WHOLLY within the first `e` bytes
(an occurrence merely starting before `e` but extending past it is not
found); both return nothing when the pattern is empty or cannot fit; and the
given forward-search examples hold. -/
theorem c4_find_pattern_characterization :
    (∀ (data pat : List Nat) (s p : Nat),
        find_pattern data pat s = some p ↔
          (s ≤ p ∧ occursAt data pat p ∧
            ∀ q, s ≤ q → q < p → ¬ occursAt data pat q)) ∧
    (∀ (data pat : List Nat) (e p : Nat),
        find_pattern_reverse data pat e = some p ↔
          (occursAt data pat p ∧ p + pat.length ≤ min e data.length ∧
            ∀ q, p < q → q + pat.length ≤ min e data.length → ¬ occursAt data pat q)) ∧
    (∀ (data : List Nat) (s : Nat), find_pattern data [] s = Option.none) ∧
    (∀ (data pat : List Nat) (s : Nat),
        data.length < s + pat.length → find_pattern data pat s = Option.none) ∧
    (∀ (data : List Nat) (e : Nat), find_pattern_reverse data [] e = Option.none) ∧
    (∀ (data pat : List Nat) (e : Nat),
        min e data.length < pat.length → find_pattern_reverse data pat e = Option.none) ∧
    find_pattern [1, 2, 3, 2] [2] 0 = some 1 ∧
    find_pattern [1, 2, 3, 2] [2] 2 = some 3 ∧
    find_pattern [1, 2, 3, 2] [2] 4 = Option.none := by
  refine
    ⟨find_pattern_spec, find_pattern_reverse_spec, ?_, ?_, ?_, ?_, by decide, by decide,
      by decide⟩
  · intro data s
    simp [find_pattern]
  · intro data pat s h
    unfold find_pattern
    rw [if_pos (Or.inr h)]
  · intro data e
    simp [find_pattern_reverse]
  · intro data pat e h
    unfold find_pattern_reverse
    by_cases hg : pat.isEmpty = true ∨ e = 0
    · rw [if_pos hg]
    · rw [if_neg hg]
      simp only [if_pos h]

/-- Counterexample for C4 as stated: `[7,7]` occurs in `[7,7,7]` at offset 1,
which starts strictly before the end index 2, yet
`find_pattern_reverse [7,7,7] [7,7] 2` returns `some 0`, not `some 1` — the
match at 1 extends past index 2 and is not considered. -/
theorem c4_counterexample :
    find_pattern_reverse [7, 7, 7] [7, 7] 2 = some 0 ∧
      occursAt [7, 7, 7] [7, 7] 1 ∧
      (1 : Nat) < 2 ∧
      find_pattern_reverse [7, 7, 7] [7, 7] 2 ≠ some 1 := by
  exact ⟨by decide, by decide, by decide, by decide⟩

/-! ## Controller field lemmas -/

theorem ensure_cursor_visible_fields (x : App) :
    (App.ensure_cursor_visible x).cursor = x.cursor ∧
      (App.ensure_cursor_visible x).document = x.document ∧
      (App.ensure_cursor_visible x).input_state = x.input_state ∧
      (App.ensure_cursor_visible x).status_message = x.status_message := by
  simp only [App.ensure_cursor_visible]
  split_ifs <;> exact ⟨rfl, rfl, rfl, rfl⟩

/-! ## Claim C8 -/

theorem goto_parse_nil (s : String) (h : s.data = []) :
    App.goto_parse s = Option.none := by
  unfold App.goto_parse
  rw [h]
  rfl

/-- C8: whenever the goto input parses to an address `addr`, the jump
succeeds exactly when `addr ≤ len` (the end-of-file position `len` is a legal
target), placing the cursor there; an address beyond the buffer is rejected,
the cursor is unchanged, and the status message reports the buffer length. -/
theorem c8_goto_address_bounds (a : App) (input : String) (addr : Nat)
    (hparse : App.goto_parse (rustTrim input) = some addr) :
    (addr ≤ a.document.len →
      (App.goto_address input a).cursor = addr ∧
        (App.goto_address input a).status_message = some ("Jumped to " ++ hex8 addr)) ∧
    (a.document.len < addr →
      (App.goto_address input a).cursor = a.cursor ∧
        (App.goto_address input a).status_message =
          some ("Address " ++ hexUpper addr ++ " exceeds file size " ++
            hexUpper a.document.len)) := by
  have hne : ¬(rustTrim input).data.isEmpty = true := by
    intro h
    rw [goto_parse_nil _ (List.isEmpty_iff.mp h)] at hparse
    exact Option.noConfusion hparse
  unfold App.goto_address
  rw [if_neg hne, hparse]
  simp only []
  constructor
  · intro hle
    rw [if_pos hle]
    exact ⟨(ensure_cursor_visible_fields _).1, rfl⟩
  · intro hgt
    rw [if_neg (by omega : ¬addr ≤ a.document.len)]
    exact ⟨rfl, rfl⟩

/-- Witness for C8: on a 16-byte buffer, `"0x10"` jumps to the end-of-file
position 16 and `"0x11"` is rejected with the length in the message. -/
theorem c8_witness :
    (App.goto_address "0x10"
          { App.new with document := Document.from_bytes (List.replicate 16 0) }).cursor =
        16 ∧
      (App.goto_address "0x11"
            { App.new with document := Document.from_bytes (List.replicate 16 0) }).cursor =
        0 ∧
      (App.goto_address "0x11"
            { App.new with
              document := Document.from_bytes (List.replicate 16 0) }).status_message =
        some "Address 11 exceeds file size 10" := by
  have h1 :=
    c8_goto_address_bounds
      { App.new with document := Document.from_bytes (List.replicate 16 0) } "0x10" 16
      (by decide)
  have h2 :=
    c8_goto_address_bounds
      { App.new with document := Document.from_bytes (List.replicate 16 0) } "0x11" 17
      (by decide)
  refine ⟨(h1.1 (by decide)).1, (h2.2 (by decide)).1, ?_⟩
  rw [(h2.2 (by decide)).2]
  decide

/-! ## Claim C7 -/

theorem Document.set_data (d : Document) (pos v : Nat) (h : pos < d.data.length) :
    (Document.set d pos v).2.data = d.data.set pos v := by
  unfold Document.set
  rw [if_pos h]
  by_cases he : d.data.getD pos 0 ≠ v
  · rw [if_pos he]
  · rw [if_neg he]
    push_neg at he
    show d.data = d.data.set pos v
    conv_rhs => rw [← he]
    exact (list_set_getD_self d.data pos h).symm

theorem Document.insert_data (d : Document) (pos v : Nat) (h : pos ≤ d.data.length) :
    (Document.insert d pos v).2.data = d.data.insertIdx pos v := by
  unfold Document.insert
  rw [if_pos h]

theorem cursor_right_fields (x : App) :
    (App.cursor_right x).document = x.document ∧
      (App.cursor_right x).cursor =
        (if x.cursor < x.document.len then x.cursor + 1 else x.cursor) ∧
      (App.cursor_right x).input_state = x.input_state := by
  unfold App.cursor_right
  split_ifs with h
  · exact
      ⟨(ensure_cursor_visible_fields _).2.1, (ensure_cursor_visible_fields _).1,
        (ensure_cursor_visible_fields _).2.2.1⟩
  · exact ⟨rfl, rfl, rfl⟩

/-- C7: in hex Overwrite entry at a cursor position `≤ len`, the first hex
digit merges as high nibble with the existing low nibble of the byte at the
cursor (or 0 at end-of-file, where the byte is inserted) and is written
immediately, the input state becoming `FirstNibble(d1)` with the cursor
unmoved; the second digit recombines into the full byte `(d1<<4)|d2`,
overwrites the just-written byte, advances the cursor by one and returns the
input state to Normal. -/
theorem c7_hex_overwrite_entry (a : App) (c1 c2 : Char) (d1 d2 : Nat)
    (hmode : a.edit_mode = EditMode.overwrite)
    (hstate : a.input_state = InputState.normal)
    (hcur : a.cursor ≤ a.document.data.length)
    (h1 : (normalize_hex_char c1).bind (fun c => charToDigit c 16) = some d1)
    (h2 : (normalize_hex_char c2).bind (fun c => charToDigit c 16) = some d2) :
    (App.input_hex c1 a).input_state = InputState.hexFirstDigit d1 ∧
    (App.input_hex c1 a).cursor = a.cursor ∧
    (App.input_hex c1 a).document.data =
      (if a.cursor < a.document.data.length then
        a.document.data.set a.cursor
          ((d1 <<< 4) ||| (a.document.data.getD a.cursor 0 &&& 0x0F))
      else a.document.data ++ [d1 <<< 4]) ∧
    (App.input_hex c2 (App.input_hex c1 a)).input_state = InputState.normal ∧
    (App.input_hex c2 (App.input_hex c1 a)).cursor = a.cursor + 1 ∧
    (App.input_hex c2 (App.input_hex c1 a)).document.data =
      ((App.input_hex c1 a).document.data).set a.cursor ((d1 <<< 4) ||| d2) := by
  have step1 :
      App.input_hex c1 a =
        { a with
          document :=
            if a.cursor < a.document.len then
              (Document.set a.document a.cursor
                  ((d1 <<< 4) ||| ((Document.get a.document a.cursor).getD 0 &&& 0x0F))).2
            else
              (Document.insert a.document a.cursor
                  ((d1 <<< 4) ||| 0)).2
          input_state := InputState.hexFirstDigit d1 } := by
    unfold App.input_hex
    rw [h1]
    simp only [hstate, hmode]
    by_cases hlt : a.cursor < a.document.len
    · rw [if_pos hlt, if_pos hlt, if_pos hlt]
    · rw [if_neg hlt, if_neg hlt, if_neg hlt]
  have hdata1 :
      (App.input_hex c1 a).document.data =
        (if a.cursor < a.document.data.length then
          a.document.data.set a.cursor
            ((d1 <<< 4) ||| (a.document.data.getD a.cursor 0 &&& 0x0F))
        else a.document.data ++ [d1 <<< 4]) := by
    rw [step1]
    show
      (if a.cursor < a.document.len then _ else _ : Document).data = _
    by_cases hlt : a.cursor < a.document.len
    · rw [if_pos hlt, if_pos (show a.cursor < a.document.data.length from hlt)]
      exact Document.set_data a.document a.cursor _ hlt
    · rw [if_neg hlt, if_neg (show ¬a.cursor < a.document.data.length from hlt)]
      rw [Document.insert_data a.document a.cursor _ hcur]
      have hc : a.cursor = a.document.data.length := by
        have : ¬a.cursor < a.document.data.length := hlt
        omega
      rw [hc, List.insertIdx_length_self, Nat.or_zero]
  have hlen1 : (App.input_hex c1 a).cursor < (App.input_hex c1 a).document.len := by
    rw [step1]
    show a.cursor < _
    rw [show ({ a with
          document :=
            if a.cursor < a.document.len then
              (Document.set a.document a.cursor
                  ((d1 <<< 4) ||| ((Document.get a.document a.cursor).getD 0 &&& 0x0F))).2
            else (Document.insert a.document a.cursor ((d1 <<< 4) ||| 0)).2
          input_state := InputState.hexFirstDigit d1 } : App).document.len =
        (if a.cursor < a.document.len then
            (Document.set a.document a.cursor
                ((d1 <<< 4) ||| ((Document.get a.document a.cursor).getD 0 &&& 0x0F))).2
          else (Document.insert a.document a.cursor ((d1 <<< 4) ||| 0)).2).len from rfl]
    by_cases hlt : a.cursor < a.document.len
    · rw [if_pos hlt]
      show a.cursor < (Document.set _ _ _).2.data.length
      rw [Document.set_data _ _ _ hlt, List.length_set]
      exact hlt
    · rw [if_neg hlt]
      show a.cursor < (Document.insert _ _ _).2.data.length
      rw [Document.insert_data _ _ _ hcur, List.length_insertIdx _ _ hcur]
      omega
  have step2 :
      App.input_hex c2 (App.input_hex c1 a) =
        { App.cursor_right
            { App.input_hex c1 a with
              document :=
                (Document.set (App.input_hex c1 a).document (App.input_hex c1 a).cursor
                    ((d1 <<< 4) ||| d2)).2 } with
          input_state := InputState.normal } := by
    conv_lhs => rw [App.input_hex]
    rw [h2]
    have hs1 : (App.input_hex c1 a).input_state = InputState.hexFirstDigit d1 := by
      rw [step1]
    simp only [hs1]
  have hc1 : (App.input_hex c1 a).cursor = a.cursor := by rw [step1]
  have hset_len :
      (App.input_hex c1 a).cursor <
        (Document.set (App.input_hex c1 a).document (App.input_hex c1 a).cursor
            ((d1 <<< 4) ||| d2)).2.data.length := by
    rw [Document.set_data _ _ _ hlen1, List.length_set]
    exact hlen1
  refine ⟨by rw [step1], hc1, hdata1, by rw [step2], ?_, ?_⟩
  · rw [step2]
    show (App.cursor_right _).cursor = a.cursor + 1
    rw [(cursor_right_fields _).2.1]
    simp only [Document.len]
    rw [if_pos hset_len, hc1]
  · rw [step2]
    show (App.cursor_right _).document.data = _
    rw [(cursor_right_fields _).1]
    show (Document.set _ _ _).2.data = _
    rw [Document.set_data _ _ _ hlen1, hc1]

/-- Witness for C7: on the empty buffer in Overwrite mode, entering `'4'`
then `'1'` yields the one-byte buffer `[0x41]` with the cursor at 1. -/
theorem c7_witness :
    (App.input_hex '1' (App.input_hex '4' App.new)).document.data = [0x41] ∧
      (App.input_hex '1' (App.input_hex '4' App.new)).cursor = 1 ∧
      (App.input_hex '1' (App.input_hex '4' App.new)).input_state = InputState.normal ∧
      (App.input_hex '4' App.new).input_state = InputState.hexFirstDigit 4 := by
  have h :=
    c7_hex_overwrite_entry App.new '4' '1' 4 1 rfl rfl (by decide) (by decide) (by decide)
  refine ⟨?_, h.2.2.2.2.1, h.2.2.2.1, h.1⟩
  rw [h.2.2.2.2.2, h.2.2.1]
  decide

/-! ## Claim C6: mode-preservation lemmas

For each controller operation that never writes the four mode fields, the
`modesOf` projection is unchanged; the mode-setting operations get dedicated
lemmas below. -/

theorem ms_ensure (x : App) :
    modesOf (App.ensure_cursor_visible x) = modesOf x := by
  simp only [App.ensure_cursor_visible]
  split_ifs <;> rfl

theorem ms_cursor_up (x : App) : modesOf (App.cursor_up x) = modesOf x := by
  simp only [App.cursor_up]
  split_ifs <;> first | rfl | exact ms_ensure _

theorem ms_cursor_down (x : App) : modesOf (App.cursor_down x) = modesOf x := by
  simp only [App.cursor_down]
  split_ifs <;> first | rfl | exact ms_ensure _

theorem ms_cursor_left (x : App) : modesOf (App.cursor_left x) = modesOf x := by
  simp only [App.cursor_left]
  split_ifs <;> first | rfl | exact ms_ensure _

theorem ms_cursor_right (x : App) : modesOf (App.cursor_right x) = modesOf x := by
  simp only [App.cursor_right]
  split_ifs <;> first | rfl | exact ms_ensure _

theorem ms_page_up (x : App) : modesOf (App.page_up x) = modesOf x := rfl

theorem ms_page_down (x : App) : modesOf (App.page_down x) = modesOf x :=
  ms_ensure _

theorem ms_cursor_home (x : App) : modesOf (App.cursor_home x) = modesOf x := rfl

theorem ms_cursor_end (x : App) : modesOf (App.cursor_end x) = modesOf x := rfl

theorem ms_update_selection (x : App) :
    modesOf (App.update_selection x) = modesOf x := by
  unfold App.update_selection
  cases x.selection_start with
  | none => rfl
  | some st =>
      simp only []
      split_ifs <;> rfl

theorem ms_start_selection (x : App) :
    modesOf (App.start_selection x) = modesOf x := rfl

theorem ms_clear_selection (x : App) :
    modesOf (App.clear_selection x) = modesOf x := rfl

theorem ms_select_up (x : App) : modesOf (App.select_up x) = modesOf x := by
  simp only [App.select_up]
  split_ifs <;> (rw [ms_update_selection, ms_cursor_up] <;> try rfl)

theorem ms_select_down (x : App) : modesOf (App.select_down x) = modesOf x := by
  simp only [App.select_down]
  split_ifs <;> (rw [ms_update_selection, ms_cursor_down] <;> try rfl)

theorem ms_select_left (x : App) : modesOf (App.select_left x) = modesOf x := by
  simp only [App.select_left]
  split_ifs <;> (rw [ms_update_selection, ms_cursor_left] <;> try rfl)

theorem ms_select_right (x : App) : modesOf (App.select_right x) = modesOf x := by
  simp only [App.select_right]
  split_ifs <;> (rw [ms_update_selection, ms_cursor_right] <;> try rfl)

theorem ms_applyN (f : App → App) (hf : ∀ x, modesOf (f x) = modesOf x) :
    ∀ (n : Nat) (x : App), modesOf (App.applyN f n x) = modesOf x
  | 0, _ => rfl
  | n + 1, x => (ms_applyN f hf n (f x)).trans (hf x)

theorem ms_input_hex (ch : Char) (x : App) :
    modesOf (App.input_hex ch x) = modesOf x := by
  unfold App.input_hex
  cases (normalize_hex_char ch).bind (fun c => charToDigit c 16) with
  | none => rfl
  | some digit =>
      cases x.input_state with
      | normal => cases x.edit_mode <;> split_ifs <;> rfl
      | hexFirstDigit first => exact ms_cursor_right _

theorem ms_input_ascii (env : Env) (ch : Char) (x : App) :
    modesOf (App.input_ascii env ch x) = modesOf x := by
  unfold App.input_ascii
  cases env.encodeChar ch x.encoding with
  | none => rfl
  | some bytes =>
      simp only []
      split_ifs with h
      · rfl
      · cases x.edit_mode <;> exact ms_applyN _ ms_cursor_right _ _

theorem ms_copy (x : App) : modesOf (App.copy x) = modesOf x := by
  unfold App.copy
  split
  · split <;> rfl
  · rfl

theorem ms_copy_hex (x : App) : modesOf (App.copy_hex x) = modesOf x := by
  unfold App.copy_hex
  split
  · split <;> rfl
  · rfl

theorem ms_cut (x : App) : modesOf (App.cut x) = modesOf x := by
  unfold App.cut
  split
  · split <;> rfl
  · rfl

theorem ms_paste_from_terminal (content : String) (x : App) :
    modesOf (App.paste_from_terminal content x) = modesOf x := by
  unfold App.paste_from_terminal
  simp only []
  split_ifs with h
  · rfl
  · split <;> split <;> exact ms_ensure _

theorem ms_paste (env : Env) (x : App) : modesOf (App.paste env x) = modesOf x := by
  unfold App.paste
  split
  · exact ms_paste_from_terminal _ _
  · rfl

theorem ms_find_next (x : App) : modesOf (App.find_next x) = modesOf x := by
  unfold App.find_next
  simp only []
  split_ifs with h
  · rfl
  · split
    · exact ms_ensure _
    · split
      · split_ifs <;> first | exact ms_ensure _ | rfl
      · rfl

theorem ms_find_prev (x : App) : modesOf (App.find_prev x) = modesOf x := by
  unfold App.find_prev
  simp only []
  split_ifs with h
  · rfl
  · split
    · exact ms_ensure _
    · split
      · split_ifs <;> first | exact ms_ensure _ | rfl
      · rfl

theorem ms_do_incremental_search (x : App) :
    modesOf (App.do_incremental_search x) = modesOf x := by
  unfold App.do_incremental_search
  simp only []
  split_ifs with h
  · rfl
  · split
    · exact ms_ensure _
    · split
      · exact ms_ensure _
      · rfl

theorem ms_goto_address (input : String) (x : App) :
    modesOf (App.goto_address input x) = modesOf x := by
  unfold App.goto_address
  simp only []
  split_ifs with h
  · rfl
  · split
    · split_ifs <;> first | exact ms_ensure _ | rfl
    · rfl

theorem ms_open_file (env : Env) (path : String) (x : App) :
    modesOf (App.open_file env path x) = modesOf x := by
  unfold App.open_file
  simp only []
  split_ifs with h
  · rfl
  · split <;> rfl

theorem ms_save_as_string (env : Env) (path : String) (x : App) :
    modesOf (App.save_as_string env path x) = modesOf x := by
  unfold App.save_as_string
  simp only []
  split_ifs with h
  · rfl
  · split <;> rfl

theorem ms_do_kill_buffer (x : App) :
    modesOf (App.do_kill_buffer x) = modesOf x := rfl

theorem ms_cmd_fill (arg : String) (x : App) :
    modesOf (App.cmd_fill arg x) = modesOf x := by
  unfold App.cmd_fill
  simp only []
  split
  · rfl
  · split <;> rfl

theorem ms_dispatchInsert (count byte : Option Nat) (x : App) :
    modesOf (App.cmd_insert.dispatchInsert count byte x) = modesOf x := by
  unfold App.cmd_insert.dispatchInsert
  simp only []
  split
  · rfl
  · split
    · rfl
    · split_ifs <;> rfl

theorem ms_cmd_insert (arg : String) (x : App) :
    modesOf (App.cmd_insert arg x) = modesOf x := by
  unfold App.cmd_insert
  simp only []
  split
  · exact ms_dispatchInsert _ _ _
  · exact ms_dispatchInsert _ _ _
  · rfl

theorem ms_do_replace_current (x : App) :
    modesOf (App.do_replace_current x) = modesOf x := by
  unfold App.do_replace_current
  simp only []
  split_ifs with h
  · rfl
  · split
    · split_ifs <;> rfl
    · rfl

theorem ms_replaceAllLoop :
    ∀ (fuel count : Nat) (x : App),
      modesOf (App.replaceAllLoop fuel count x).1 = modesOf x
  | 0, _, _ => rfl
  | fuel + 1, count, x => by
      unfold App.replaceAllLoop
      simp only []
      split_ifs with h
      · rfl
      · split
        · exact (ms_replaceAllLoop fuel _ _).trans ((ms_do_replace_current _).trans rfl)
        · rfl

theorem search_of_ms {x y : App} (h : modesOf x = modesOf y) :
    x.search_mode = y.search_mode := congrArg Prod.fst h

theorem replace_of_ms {x y : App} (h : modesOf x = modesOf y) :
    x.replace_mode = y.replace_mode := congrArg (fun t => t.2.1) h

theorem prompt_of_ms {x y : App} (h : modesOf x = modesOf y) :
    x.prompt_mode = y.prompt_mode := congrArg (fun t => t.2.2.1) h

theorem confirm_of_ms {x y : App} (h : modesOf x = modesOf y) :
    x.confirm_mode = y.confirm_mode := congrArg (fun t => t.2.2.2) h

theorem exclusive_of_ms {x y : App} (h : modesOf x = modesOf y) (hy : ModeExclusive y) :
    ModeExclusive x := by
  unfold ModeExclusive elevatedCount at *
  rw [h]
  exact hy

theorem exclusive_all_off {x : App} (hs : x.search_mode = false)
    (hr : x.replace_mode = ReplaceMode.off) (hp : x.prompt_mode = PromptMode.off)
    (hc : x.confirm_mode = ConfirmMode.off) : ModeExclusive x := by
  unfold ModeExclusive elevatedCount countModes modesOf
  simp [hs, hr, hp, hc]

/-- `find_next_for_replace` never touches the search, prompt or confirm
modes. -/
theorem srpc_find_next_for_replace (x : App) :
    (App.find_next_for_replace x).search_mode = x.search_mode ∧
      (App.find_next_for_replace x).prompt_mode = x.prompt_mode ∧
      (App.find_next_for_replace x).confirm_mode = x.confirm_mode := by
  unfold App.find_next_for_replace
  simp only []
  split_ifs with h
  · exact ⟨rfl, rfl, rfl⟩
  · split
    · exact ⟨search_of_ms (ms_ensure _), prompt_of_ms (ms_ensure _), confirm_of_ms (ms_ensure _)⟩
    · exact ⟨rfl, rfl, rfl⟩

/-- `do_replace_all_remaining` turns the replace mode off and touches no
other mode. -/
theorem srpc_do_replace_all_remaining (x : App) :
    (App.do_replace_all_remaining x).search_mode = x.search_mode ∧
      (App.do_replace_all_remaining x).prompt_mode = x.prompt_mode ∧
      (App.do_replace_all_remaining x).confirm_mode = x.confirm_mode ∧
      (App.do_replace_all_remaining x).replace_mode = ReplaceMode.off := by
  have h := ms_replaceAllLoop (x.document.data.length + 2) 0 x
  exact ⟨(search_of_ms h).trans rfl, (prompt_of_ms h).trans rfl, (confirm_of_ms h).trans rfl, rfl⟩

/-- The replace-mode key handler touches only the replace mode. -/
theorem srpc_handle_replace_key (k : KeyEvent) (x : App) :
    (App.handle_replace_key k x).search_mode = x.search_mode ∧
      (App.handle_replace_key k x).prompt_mode = x.prompt_mode ∧
      (App.handle_replace_key k x).confirm_mode = x.confirm_mode := by
  unfold App.handle_replace_key
  split
  · split_ifs <;>
      first
        | exact ⟨rfl, rfl, rfl⟩
        | exact
            ⟨(search_of_ms (ms_ensure _)).trans rfl, (prompt_of_ms (ms_ensure _)).trans rfl,
              (confirm_of_ms (ms_ensure _)).trans rfl⟩
        | (split <;> exact ⟨rfl, rfl, rfl⟩)
  · split_ifs <;>
      first
        | exact ⟨rfl, rfl, rfl⟩
        | exact
            ⟨(search_of_ms (ms_ensure _)).trans rfl, (prompt_of_ms (ms_ensure _)).trans rfl,
              (confirm_of_ms (ms_ensure _)).trans rfl⟩
        | exact
            ⟨((srpc_find_next_for_replace _).1).trans rfl,
              ((srpc_find_next_for_replace _).2.1).trans rfl,
              ((srpc_find_next_for_replace _).2.2).trans rfl⟩
        | (split <;> exact ⟨rfl, rfl, rfl⟩)
  · simp only []
    split_ifs <;>
      first
        | exact ⟨rfl, rfl, rfl⟩
        | exact
            ⟨((srpc_find_next_for_replace _).1).trans (search_of_ms (ms_do_replace_current _)),
              ((srpc_find_next_for_replace _).2.1).trans (prompt_of_ms (ms_do_replace_current _)),
              ((srpc_find_next_for_replace _).2.2).trans
                (confirm_of_ms (ms_do_replace_current _))⟩
        | exact
            ⟨(srpc_find_next_for_replace _).1, (srpc_find_next_for_replace _).2.1,
              (srpc_find_next_for_replace _).2.2⟩
        | exact
            ⟨(srpc_do_replace_all_remaining _).1, (srpc_do_replace_all_remaining _).2.1,
              (srpc_do_replace_all_remaining _).2.2.1⟩
  · exact ⟨rfl, rfl, rfl⟩

/-- The incremental-search key handler touches only the search mode. -/
theorem srpc_handle_search_key (k : KeyEvent) (x : App) :
    (App.handle_search_key k x).replace_mode = x.replace_mode ∧
      (App.handle_search_key k x).prompt_mode = x.prompt_mode ∧
      (App.handle_search_key k x).confirm_mode = x.confirm_mode := by
  simp only [App.handle_search_key]
  split_ifs <;>
    first
      | exact ⟨rfl, rfl, rfl⟩
      | exact
          ⟨(replace_of_ms (ms_ensure _)).trans rfl, (prompt_of_ms (ms_ensure _)).trans rfl,
            (confirm_of_ms (ms_ensure _)).trans rfl⟩
      | exact
          ⟨(replace_of_ms (ms_find_next _)).trans rfl, (prompt_of_ms (ms_find_next _)).trans rfl,
            (confirm_of_ms (ms_find_next _)).trans rfl⟩
      | exact
          ⟨(replace_of_ms (ms_find_prev _)).trans rfl, (prompt_of_ms (ms_find_prev _)).trans rfl,
            (confirm_of_ms (ms_find_prev _)).trans rfl⟩
      | exact
          ⟨(replace_of_ms (ms_do_incremental_search _)).trans rfl,
            (prompt_of_ms (ms_do_incremental_search _)).trans rfl,
            (confirm_of_ms (ms_do_incremental_search _)).trans rfl⟩
      | (split <;>
          first
            | exact ⟨rfl, rfl, rfl⟩
            | exact
                ⟨(replace_of_ms (ms_do_incremental_search _)).trans rfl,
                  (prompt_of_ms (ms_do_incremental_search _)).trans rfl,
                  (confirm_of_ms (ms_do_incremental_search _)).trans rfl⟩)

/-- `execute_confirmed_action` turns the confirm mode off and touches no
other mode. -/
theorem srp_execute_confirmed_action (env : Env) (x : App) :
    (App.execute_confirmed_action env x).search_mode = x.search_mode ∧
      (App.execute_confirmed_action env x).replace_mode = x.replace_mode ∧
      (App.execute_confirmed_action env x).prompt_mode = x.prompt_mode ∧
      (App.execute_confirmed_action env x).confirm_mode = ConfirmMode.off := by
  simp only [App.execute_confirmed_action]
  split
  · exact ⟨rfl, rfl, rfl, rfl⟩
  · exact
      ⟨(search_of_ms (ms_open_file _ _ _)).trans rfl,
        (replace_of_ms (ms_open_file _ _ _)).trans rfl,
        (prompt_of_ms (ms_open_file _ _ _)).trans rfl,
        (confirm_of_ms (ms_open_file _ _ _)).trans rfl⟩
  · exact ⟨rfl, rfl, rfl, rfl⟩
  · exact ⟨rfl, rfl, rfl, rfl⟩

/-- The confirm-mode key handler touches only the confirm mode. -/
theorem srp_handle_confirm_key (env : Env) (k : KeyEvent) (x : App) :
    (App.handle_confirm_key env k x).search_mode = x.search_mode ∧
      (App.handle_confirm_key env k x).replace_mode = x.replace_mode ∧
      (App.handle_confirm_key env k x).prompt_mode = x.prompt_mode := by
  simp only [App.handle_confirm_key]
  split_ifs <;>
    first
      | exact ⟨rfl, rfl, rfl⟩
      | exact
          ⟨((srp_execute_confirmed_action _ _).1).trans rfl,
            ((srp_execute_confirmed_action _ _).2.1).trans rfl,
            ((srp_execute_confirmed_action _ _).2.2.1).trans rfl⟩
      | (split <;>
          first
            | exact ⟨rfl, rfl, rfl⟩
            | exact
                ⟨((srp_execute_confirmed_action _ _).1).trans rfl,
                  ((srp_execute_confirmed_action _ _).2.1).trans rfl,
                  ((srp_execute_confirmed_action _ _).2.2.1).trans rfl⟩)

theorem exclusive_single_search {x : App} (hr : x.replace_mode = ReplaceMode.off)
    (hp : x.prompt_mode = PromptMode.off) (hc : x.confirm_mode = ConfirmMode.off) :
    ModeExclusive x := by
  cases hb : x.search_mode <;>
    simp [ModeExclusive, elevatedCount, countModes, modesOf, hb, hr, hp, hc]

theorem exclusive_single_replace {x : App} (hs : x.search_mode = false)
    (hp : x.prompt_mode = PromptMode.off) (hc : x.confirm_mode = ConfirmMode.off) :
    ModeExclusive x := by
  cases hb : x.replace_mode <;>
    simp [ModeExclusive, elevatedCount, countModes, modesOf, hb, hs, hp, hc]

theorem exclusive_single_prompt {x : App} (hs : x.search_mode = false)
    (hr : x.replace_mode = ReplaceMode.off) (hc : x.confirm_mode = ConfirmMode.off) :
    ModeExclusive x := by
  cases hb : x.prompt_mode <;>
    simp [ModeExclusive, elevatedCount, countModes, modesOf, hb, hs, hr, hc]

theorem exclusive_single_confirm {x : App} (hs : x.search_mode = false)
    (hr : x.replace_mode = ReplaceMode.off) (hp : x.prompt_mode = PromptMode.off) :
    ModeExclusive x := by
  cases hb : x.confirm_mode <;>
    simp [ModeExclusive, elevatedCount, countModes, modesOf, hb, hs, hr, hp]

theorem off_of_search {a : App} (h : ModeExclusive a) (hs : a.search_mode = true) :
    a.replace_mode = ReplaceMode.off ∧ a.prompt_mode = PromptMode.off ∧
      a.confirm_mode = ConfirmMode.off := by
  have h' :
      countModes (a.search_mode, a.replace_mode, a.prompt_mode, a.confirm_mode) ≤ 1 := h
  simp only [countModes] at h'
  rw [if_pos hs] at h'
  refine ⟨?_, ?_, ?_⟩
  · by_contra hne; rw [if_pos hne] at h'; omega
  · by_contra hne; rw [if_pos hne] at h'; omega
  · by_contra hne; rw [if_pos hne] at h'; omega

theorem off_of_replace {a : App} (h : ModeExclusive a)
    (hrm : a.replace_mode ≠ ReplaceMode.off) :
    a.search_mode = false ∧ a.prompt_mode = PromptMode.off ∧
      a.confirm_mode = ConfirmMode.off := by
  have h' :
      countModes (a.search_mode, a.replace_mode, a.prompt_mode, a.confirm_mode) ≤ 1 := h
  simp only [countModes] at h'
  rw [if_pos hrm] at h'
  refine ⟨?_, ?_, ?_⟩
  · cases hb : a.search_mode
    · rfl
    · rw [if_pos hb] at h'; omega
  · by_contra hne; rw [if_pos hne] at h'; omega
  · by_contra hne; rw [if_pos hne] at h'; omega

theorem off_of_prompt {a : App} (h : ModeExclusive a)
    (hpm : a.prompt_mode ≠ PromptMode.off) :
    a.search_mode = false ∧ a.replace_mode = ReplaceMode.off ∧
      a.confirm_mode = ConfirmMode.off := by
  have h' :
      countModes (a.search_mode, a.replace_mode, a.prompt_mode, a.confirm_mode) ≤ 1 := h
  simp only [countModes] at h'
  rw [if_pos hpm] at h'
  refine ⟨?_, ?_, ?_⟩
  · cases hb : a.search_mode
    · rfl
    · rw [if_pos hb] at h'; omega
  · by_contra hne; rw [if_pos hne] at h'; omega
  · by_contra hne; rw [if_pos hne] at h'; omega

theorem off_of_confirm {a : App} (h : ModeExclusive a)
    (hcm : a.confirm_mode ≠ ConfirmMode.off) :
    a.search_mode = false ∧ a.replace_mode = ReplaceMode.off ∧
      a.prompt_mode = PromptMode.off := by
  have h' :
      countModes (a.search_mode, a.replace_mode, a.prompt_mode, a.confirm_mode) ≤ 1 := h
  simp only [countModes] at h'
  rw [if_pos hcm] at h'
  refine ⟨?_, ?_, ?_⟩
  · cases hb : a.search_mode
    · rfl
    · rw [if_pos hb] at h'; omega
  · by_contra hne; rw [if_pos hne] at h'; omega
  · by_contra hne; rw [if_pos hne] at h'; omega

/-- Executing a normal-mode action from a state with every elevated mode off
leaves at most one elevated mode on. -/
theorem execute_exclusive (env : Env) (act : Action) (a : App)
    (hs : a.search_mode = false) (hr : a.replace_mode = ReplaceMode.off)
    (hp : a.prompt_mode = PromptMode.off) (hc : a.confirm_mode = ConfirmMode.off) :
    ModeExclusive (App.execute env act a) := by
  have base : ModeExclusive a := exclusive_all_off hs hr hp hc
  cases act with
  | quit =>
      simp only [App.execute]
      split_ifs <;>
        first
          | contradiction
          | exact exclusive_single_confirm hs hr hp
          | exact exclusive_all_off hs hr hp hc
  | save =>
      simp only [App.execute]
      split <;> exact exclusive_all_off hs hr hp hc
  | saveAs => exact exclusive_single_prompt hs hr hc
  | cursorUp => exact exclusive_of_ms ((ms_update_selection _).trans (ms_cursor_up _)) base
  | cursorDown => exact exclusive_of_ms ((ms_update_selection _).trans (ms_cursor_down _)) base
  | cursorLeft => exact exclusive_of_ms ((ms_update_selection _).trans (ms_cursor_left _)) base
  | cursorRight =>
      exact exclusive_of_ms ((ms_update_selection _).trans (ms_cursor_right _)) base
  | cursorHome => exact exclusive_of_ms ((ms_update_selection _).trans (ms_cursor_home _)) base
  | cursorEnd => exact exclusive_of_ms ((ms_update_selection _).trans (ms_cursor_end _)) base
  | pageUp => exact exclusive_of_ms ((ms_update_selection _).trans (ms_page_up _)) base
  | pageDown => exact exclusive_of_ms ((ms_update_selection _).trans (ms_page_down _)) base
  | gotoBeginning => exact exclusive_of_ms (ms_update_selection _) base
  | gotoEnd => exact exclusive_of_ms ((ms_update_selection _).trans (ms_ensure _)) base
  | gotoAddress n => exact base
  | inputHex c => exact exclusive_of_ms (ms_input_hex _ _) base
  | inputAscii c => exact exclusive_of_ms (ms_input_ascii _ _ _) base
  | delete => exact base
  | backspace => exact base
  | toggleMode => exact base
  | toggleEditMode => exact base
  | startSelection => exact exclusive_of_ms (ms_start_selection _) base
  | clearSelection => exact exclusive_of_ms (ms_clear_selection _) base
  | selectAll => exact base
  | selectUp => exact exclusive_of_ms (ms_select_up _) base
  | selectDown => exact exclusive_of_ms (ms_select_down _) base
  | selectLeft => exact exclusive_of_ms (ms_select_left _) base
  | selectRight => exact exclusive_of_ms (ms_select_right _) base
  | copy => exact exclusive_of_ms (ms_copy _) base
  | copyHex => exact exclusive_of_ms (ms_copy_hex _) base
  | cut => exact exclusive_of_ms (ms_cut _) base
  | paste => exact exclusive_of_ms (ms_paste _ _) base
  | pasteHex => exact base
  | toggleEncoding => exact base
  | setBytesPerRow n => exact base
  | startSearch => exact exclusive_single_search hr hp hc
  | startSearchBack => exact exclusive_single_search hr hp hc
  | search p => exact base
  | searchNext =>
      simp only [App.execute]
      split_ifs <;>
        first
          | contradiction
          | exact exclusive_of_ms (ms_find_next _) base
          | exact base
  | searchPrev =>
      simp only [App.execute]
      split_ifs <;>
        first
          | contradiction
          | exact exclusive_of_ms (ms_find_prev _) base
          | exact base
  | startReplace => exact exclusive_single_replace hs hp hc
  | startGoto => exact exclusive_single_prompt hs hr hc
  | openFile => exact exclusive_single_prompt hs hr hc
  | killBuffer =>
      simp only [App.execute]
      split_ifs <;>
        first
          | contradiction
          | exact exclusive_single_confirm hs hr hp
          | exact exclusive_of_ms (ms_do_kill_buffer _) base
  | executeCommand => exact exclusive_single_prompt hs hr hc
  | undo =>
      simp only [App.execute]
      split
      · exact exclusive_of_ms (ms_ensure _) base
      · exact base
  | redo =>
      simp only [App.execute]
      split
      · exact exclusive_of_ms (ms_ensure _) base
      · exact base
  | enterCtrlX => exact base
  | cancel => exact base
  | none => exact base

theorem ms_execute_command_with_arg (arg : String) (x : App) :
    modesOf (App.execute_command_with_arg arg x) = modesOf x := by
  simp only [App.execute_command_with_arg]
  split_ifs <;>
    first
      | rfl
      | exact (ms_cmd_fill _ _).trans rfl
      | exact (ms_cmd_insert _ _).trans rfl

/-- `dispatch_command` from a state with every elevated mode off leaves at
most one elevated mode on (it may open a prompt or the quit confirm). -/
theorem dispatch_command_exclusive (env : Env) (cmd : String) (a : App)
    (hs : a.search_mode = false) (hr : a.replace_mode = ReplaceMode.off)
    (hp : a.prompt_mode = PromptMode.off) (hc : a.confirm_mode = ConfirmMode.off) :
    ModeExclusive (App.dispatch_command env cmd a) := by
  simp only [App.dispatch_command]
  split_ifs <;>
    first
      | exact exclusive_all_off hs hr hp hc
      | exact exclusive_single_prompt hs hr hc
      | exact execute_exclusive env Action.quit a hs hr hp hc
      | (split <;> exact exclusive_all_off hs hr hp hc)

/-- `execute_prompt` from a state whose only possibly-elevated mode is the
prompt leaves at most one elevated mode on. -/
theorem execute_prompt_exclusive (env : Env) (a : App)
    (hs : a.search_mode = false) (hr : a.replace_mode = ReplaceMode.off)
    (hc : a.confirm_mode = ConfirmMode.off) :
    ModeExclusive (App.execute_prompt env a) := by
  simp only [App.execute_prompt]
  split
  · exact exclusive_of_ms (ms_goto_address _ _) (exclusive_all_off hs hr rfl hc)
  · split_ifs
    · exact exclusive_single_confirm hs hr rfl
    · exact exclusive_of_ms (ms_open_file _ _ _) (exclusive_all_off hs hr rfl hc)
  · exact exclusive_of_ms (ms_save_as_string _ _ _) (exclusive_all_off hs hr rfl hc)
  · exact dispatch_command_exclusive env _ _ hs hr rfl hc
  · exact exclusive_of_ms (ms_execute_command_with_arg _ _) (exclusive_all_off hs hr rfl hc)
  · exact exclusive_all_off hs hr rfl hc

/-- The prompt-mode key handler from a state whose only possibly-elevated
mode is the prompt leaves at most one elevated mode on. -/
theorem handle_prompt_key_exclusive (env : Env) (k : KeyEvent) (a : App)
    (hs : a.search_mode = false) (hr : a.replace_mode = ReplaceMode.off)
    (hc : a.confirm_mode = ConfirmMode.off) :
    ModeExclusive (App.handle_prompt_key env k a) := by
  simp only [App.handle_prompt_key]
  split_ifs <;>
    first
      | exact exclusive_all_off hs hr rfl hc
      | exact execute_prompt_exclusive env a hs hr hc
      | exact exclusive_single_prompt hs hr hc
      | (split <;> exact exclusive_single_prompt hs hr hc)

/-- One dispatched event preserves mode exclusivity. -/
theorem handle_event_exclusive (env : Env) (ev : Event) (a : App)
    (h : ModeExclusive a) : ModeExclusive (App.handle_event env ev a) := by
  cases ev with
  | paste content =>
      simp only [App.handle_event]
      by_cases h2 : a.search_mode = true
      · rw [if_pos h2]
        obtain ⟨hr, hp, hc⟩ := off_of_search h h2
        exact exclusive_single_search
          ((replace_of_ms (ms_do_incremental_search _)).trans hr)
          ((prompt_of_ms (ms_do_incremental_search _)).trans hp)
          ((confirm_of_ms (ms_do_incremental_search _)).trans hc)
      · rw [if_neg h2]
        exact exclusive_of_ms (ms_paste_from_terminal _ _) h
  | key k =>
      simp only [App.handle_event]
      by_cases h1 : (!k.press) = true
      · rw [if_pos h1]; exact h
      · rw [if_neg h1]
        by_cases h2 : a.search_mode = true
        · rw [if_pos h2]
          obtain ⟨hr, hp, hc⟩ := off_of_search h h2
          exact exclusive_single_search ((srpc_handle_search_key k a).1.trans hr)
            ((srpc_handle_search_key k a).2.1.trans hp)
            ((srpc_handle_search_key k a).2.2.trans hc)
        · rw [if_neg h2]
          by_cases h3 : a.replace_mode ≠ ReplaceMode.off
          · rw [if_pos h3]
            obtain ⟨hs, hp, hc⟩ := off_of_replace h h3
            exact exclusive_single_replace ((srpc_handle_replace_key k a).1.trans hs)
              ((srpc_handle_replace_key k a).2.1.trans hp)
              ((srpc_handle_replace_key k a).2.2.trans hc)
          · rw [if_neg h3]
            by_cases h4 : a.prompt_mode ≠ PromptMode.off
            · rw [if_pos h4]
              obtain ⟨hs, hr, hc⟩ := off_of_prompt h h4
              exact handle_prompt_key_exclusive env k a hs hr hc
            · rw [if_neg h4]
              by_cases h5 : a.confirm_mode ≠ ConfirmMode.off
              · rw [if_pos h5]
                obtain ⟨hs, hr, hp⟩ := off_of_confirm h h5
                exact exclusive_single_confirm ((srp_handle_confirm_key env k a).1.trans hs)
                  ((srp_handle_confirm_key env k a).2.1.trans hr)
                  ((srp_handle_confirm_key env k a).2.2.trans hp)
              · rw [if_neg h5]
                have hs : a.search_mode = false := by
                  revert h2; cases a.search_mode <;> simp
                have hr : a.replace_mode = ReplaceMode.off := not_ne_iff.mp h3
                have hp : a.prompt_mode = PromptMode.off := not_ne_iff.mp h4
                have hc : a.confirm_mode = ConfirmMode.off := not_ne_iff.mp h5
                cases a.prefix_key
                · simp only []
                  split
                  · exact execute_exclusive env _ _ hs hr hp hc
                  · split
                    · split_ifs
                      · exact execute_exclusive env _ _ hs hr hp hc
                      · exact execute_exclusive env _ _ hs hr hp hc
                      · exact exclusive_all_off hs hr hp hc
                    · exact exclusive_all_off hs hr hp hc
                · simp only []
                  split
                  · exact execute_exclusive env _ _ hs hr hp hc
                  · split
                    · split_ifs
                      · exact execute_exclusive env _ _ hs hr hp hc
                      · exact execute_exclusive env _ _ hs hr hp hc
                      · exact exclusive_all_off hs hr hp hc
                    · exact exclusive_all_off hs hr hp hc
  | focusGained => exact h
  | focusLost => exact h
  | other => exact h
  | noEvent => exact h

/-- C6: in every reachable controller state, at most one of {search mode
active, replace mode not Off, prompt mode not Off, confirm mode not Off}
holds, and every event-handling step (`App::handle_event`, hence also
`App::execute` and `App::execute_prompt`, which it dispatches through)
preserves this mutual exclusivity: from a state satisfying the invariant,
the handler never turns on a second elevated mode. -/
theorem c6_mode_exclusivity_invariant :
    (∀ (env : Env) (ev : Event) (a : App),
        ModeExclusive a → ModeExclusive (App.handle_event env ev a)) ∧
      ∀ a : App, Reachable a → ModeExclusive a := by
  constructor
  · exact fun env ev a h => handle_event_exclusive env ev a h
  · intro a h
    induction h with
    | refl => exact exclusive_all_off rfl rfl rfl rfl
    | tail _ hstep ih =>
        obtain ⟨env, ev, rfl⟩ := hstep
        exact handle_event_exclusive _ _ _ ih

end Hx
